import Mathlib

/-
Verification development for the brand-visibility tracking backend.

The Python services are embedded shallowly over `List Char` texts:
pure analysis functions become Lean functions, the regex machinery is
reproduced by a small backtracking engine with the same preference
order as the CPython `re` module (greedy and lazy repetition, ordered
alternation, MULTILINE end-of-line assertion), and dictionaries become
association lists.  Character classes follow the ASCII plus
French-accented-letter fragment actually exercised by the code and its
keyword configuration.
-/

namespace Visi

/-! ### Python-flavoured character and string primitives -/

/-- Whitespace characters recognised by the Python regex class \s
and by str.strip for the texts in scope. -/
def pyIsSpace (c : Char) : Bool :=
  c = ' ' || c = '\t' || c = '\n' || c = '\r' || c = '\x0b' || c = '\x0c'

/-- Accented letters kept by the classifier cleanup pattern; these are
word characters for the word-boundary tests on French keywords. -/
def accentChars : List Char :=
  ['à', 'â', 'ä', 'é', 'è', 'ê', 'ë', 'ï', 'î', 'ô', 'ö', 'ù', 'û', 'ü', 'ÿ', 'ç']

/-- Word characters of the regex class \w over the fragment in scope. -/
def isWordChar (c : Char) : Bool :=
  c.isAlphanum || c = '_' || accentChars.contains c

def lowerChar (c : Char) : Char := c.toLower

/-- Python str.lower over the ASCII fragment. -/
def lower (s : List Char) : List Char := s.map lowerChar

/-- Does the pattern occur as a substring starting exactly at index i. -/
def occursAt (pat text : List Char) (i : Nat) : Bool :=
  decide (i + pat.length ≤ text.length) && (text.drop i).take pat.length == pat

/-- Python str.find(pat, start): the least index p with start ≤ p at
which pat occurs, or none.  find of the empty pattern returns start
whenever start ≤ len(text). -/
def pyFind (pat text : List Char) (start : Nat) : Option Nat :=
  (List.range (text.length + 1)).find? (fun p => decide (start ≤ p) && occursAt pat text p)

/-- All indices at which pat occurs in text (overlapping included). -/
def allOccurrences (pat text : List Char) : List Nat :=
  (List.range (text.length + 1)).filter (fun p => occursAt pat text p)

/-- Python "pat in text" substring containment. -/
def pyIn (pat text : List Char) : Bool :=
  (pyFind pat text 0).isSome

/-- Python str.strip(). -/
def pyStrip (s : List Char) : List Char :=
  (s.dropWhile pyIsSpace).reverse.dropWhile pyIsSpace |>.reverse

/-- Python slice text[a:b] with clamping. -/
def pySlice (text : List Char) (a b : Nat) : List Char :=
  (text.take b).drop a

/-- Python min over rationals, kept kernel-executable. -/
def pyMin (a b : ℚ) : ℚ := if a ≤ b then a else b

/-- Value of a decimal digit string, as produced by int() on a \d+ match. -/
def digitsToNat (s : List Char) : Nat :=
  s.foldl (fun acc c => 10 * acc + (c.toNat - '0'.toNat)) 0

/-! ### A backtracking regex engine

The engine reproduces the CPython matcher on the constructs the
embedded patterns use: ordered alternation (left preferred), greedy
and lazy Kleene star with the usual no-empty-progress rule, capturing
groups, and the MULTILINE $ assertion.  Fuel bounds star unrollings;
one unit per consuming iteration, so length + 1 fuel is always enough. -/

inductive RE where
  | eps : RE
  | chr : (Char → Bool) → RE
  | cat : RE → RE → RE
  | alt : RE → RE → RE
  | star : RE → RE
  | lazystar : RE → RE
  | grp : Nat → RE → RE
  | eol : RE

/-- Engine result: remaining suffix after the match plus captured groups. -/
abbrev REOut := Option (List Char × List (Nat × List Char))

/-- One fuel level of the CPS backtracking matcher, structurally
recursive on the pattern; recur is the next-lower fuel level, consulted
by the repetition loops.  The continuation receives the remaining
suffix and the group environment; the first success in preference
order wins, exactly as in the CPython engine. -/
def reMStep (recur : RE → List Char → List (Nat × List Char) →
    (List Char → List (Nat × List Char) → REOut) → REOut) :
    RE → List Char → List (Nat × List Char) →
    (List Char → List (Nat × List Char) → REOut) → REOut
  | .eps, s, g, k => k s g
  | .chr p, s, g, k =>
      match s with
      | [] => none
      | c :: s1 => if p c then k s1 g else none
  | .cat a b, s, g, k => reMStep recur a s g (fun s1 g1 => reMStep recur b s1 g1 k)
  | .alt a b, s, g, k =>
      match reMStep recur a s g k with
      | some r => some r
      | none => reMStep recur b s g k
  | .star r, s, g, k =>
      let attempt :=
        reMStep recur r s g (fun s1 g1 =>
          if s1.length < s.length then recur (.star r) s1 g1 k else none)
      (match attempt with
       | some res => some res
       | none => k s g)
  | .lazystar r, s, g, k =>
      (match k s g with
       | some res => some res
       | none =>
           reMStep recur r s g (fun s1 g1 =>
             if s1.length < s.length then recur (.lazystar r) s1 g1 k else none))
  | .grp i r, s, g, k =>
      reMStep recur r s g (fun s1 g1 => k s1 ((i, s.take (s.length - s1.length)) :: g1))
  | .eol, s, g, k =>
      match s with
      | [] => k s g
      | c :: _ => if c = '\n' then k s g else none

/-- The matcher with a fuel bound on repetition unrollings; one unit is
spent per consuming loop iteration, so length + 1 fuel is always enough. -/
def reM : Nat → RE → List Char → List (Nat × List Char) →
    (List Char → List (Nat × List Char) → REOut) → REOut
  | 0 => reMStep (fun _ _ _ _ => none)
  | fuel + 1 => reMStep (reM fuel)

/-- Anchored match attempt at the head of s: consumed length and groups. -/
def reMatchAt (re : RE) (s : List Char) : Option (Nat × List (Nat × List Char)) :=
  match reM (s.length + 1) re s [] (fun s1 g1 => some (s1, g1)) with
  | some (s1, g1) => some (s.length - s1.length, g1)
  | none => none

/-- One scan step of finditer: leftmost match at or after the current
position, reported with its absolute start, consumed length and groups. -/
def reFirstFrom (re : RE) : Nat → List Char → Nat →
    Option (Nat × Nat × List (Nat × List Char))
  | 0, _, _ => none
  | fuel + 1, s, pos =>
      match reMatchAt re s with
      | some (n, g) => some (pos, n, g)
      | none =>
          match s with
          | [] => none
          | _ :: t => reFirstFrom re fuel t (pos + 1)

/-- Python re.finditer: non-overlapping leftmost matches, each reported
as (start position, consumed length, groups); an empty match advances
the scan by one character. -/
def reFindIter (re : RE) : Nat → List Char → Nat →
    List (Nat × Nat × List (Nat × List Char))
  | 0, _, _ => []
  | fuel + 1, s, pos =>
      match reMatchAt re s with
      | some (n, g) =>
          if n = 0 then
            (pos, 0, g) ::
              (match s with
               | [] => []
               | _ :: t => reFindIter re fuel t (pos + 1))
          else
            (pos, n, g) :: reFindIter re fuel (s.drop n) (pos + n)
      | none =>
          match s with
          | [] => []
          | _ :: t => reFindIter re fuel t (pos + 1)

/-- All matches of re in text, as (start, length, groups). -/
def reMatches (re : RE) (text : List Char) :
    List (Nat × Nat × List (Nat × List Char)) :=
  reFindIter re (text.length + 1) text 0

/-- Python re.findall for a two-group pattern: the captured pair per match. -/
def reFindAll2 (re : RE) (text : List Char) : List (List Char × List Char) :=
  (reMatches re text).map (fun m =>
    ((m.2.2.lookup 1).getD [], (m.2.2.lookup 2).getD []))

/-- Python re.search as a Boolean. -/
def reSearch (re : RE) (text : List Char) : Bool :=
  (reFirstFrom re (text.length + 1) text 0).isSome

/-! ### Regex building blocks -/

def chEq (c : Char) : RE := .chr (fun d => d = c)

def chCI (c : Char) : RE := .chr (fun d => lowerChar d = lowerChar c)

/-- Literal string, case sensitive. -/
def reLit (s : List Char) : RE :=
  s.foldr (fun c r => .cat (chEq c) r) .eps

/-- Literal string under the IGNORECASE flag. -/
def reLitCI (s : List Char) : RE :=
  s.foldr (fun c r => .cat (chCI c) r) .eps

def reOpt (r : RE) : RE := .alt r .eps

/-- Greedy plus. -/
def rePlus (r : RE) : RE := .cat r (.star r)

/-- Lazy plus, as in (.+?). -/
def rePlusLazy (r : RE) : RE := .cat r (.lazystar r)

def reDigit : RE := .chr Char.isDigit

def reSpace : RE := .chr pyIsSpace

/-- The regex dot: any character except a newline. -/
def reDot : RE := .chr (fun c => c ≠ '\n')

/-- The tail (?:\n|$) shared by all four ranking patterns;
alternation order matters: a literal newline is consumed if present. -/
def reLineEnd : RE := .alt (chEq '\n') .eol

/-! ### The concrete patterns of AnalysisService -/

/-- Ranking pattern 1: (\d+)\.?\s*(.+?)(?:\n|$) -/
def rankingRe1 : RE :=
  .cat (.grp 1 (rePlus reDigit))
    (.cat (reOpt (chEq '.'))
      (.cat (.star reSpace)
        (.cat (.grp 2 (rePlusLazy reDot)) reLineEnd)))

/-- Ranking pattern 2: #(\d+)[\s:]*(.+?)(?:\n|$) -/
def rankingRe2 : RE :=
  .cat (chEq '#')
    (.cat (.grp 1 (rePlus reDigit))
      (.cat (.star (.chr (fun c => pyIsSpace c || c = ':')))
        (.cat (.grp 2 (rePlusLazy reDot)) reLineEnd)))

/-- Ranking pattern 3: (\d+)\)\s*(.+?)(?:\n|$) -/
def rankingRe3 : RE :=
  .cat (.grp 1 (rePlus reDigit))
    (.cat (chEq ')')
      (.cat (.star reSpace)
        (.cat (.grp 2 (rePlusLazy reDot)) reLineEnd)))

/-- Ranking pattern 4: Top\s*(\d+)[\s:]*(.+?)(?:\n|$) with IGNORECASE. -/
def rankingRe4 : RE :=
  .cat (reLitCI ['T', 'o', 'p'])
    (.cat (.star reSpace)
      (.cat (.grp 1 (rePlus reDigit))
        (.cat (.star (.chr (fun c => pyIsSpace c || c = ':')))
          (.cat (.grp 2 (rePlusLazy reDot)) reLineEnd))))

/-- The four ranking patterns, in the order the service tries them. -/
def rankingPatternList : List RE := [rankingRe1, rankingRe2, rankingRe3, rankingRe4]

/-- Character classes of the AnalysisService URL pattern. -/
def urlHostChar (c : Char) : Bool := c = '-' || isWordChar c || c = '.'

def urlPathChar (c : Char) : Bool := isWordChar c || c = '/' || c = '_' || c = '.'

def urlQueryChar (c : Char) : Bool := isWordChar c || c = '&' || c = '=' || c = '%' || c = '.'

def urlFragChar (c : Char) : Bool := isWordChar c || c = '.'

/-- AnalysisService.url_pattern:
https?://(?:[-\w.])+(?:[:\d]+)?(?:/(?:[\w/_.])*(?:\?(?:[\w&=%.])*)?(?:#(?:[\w.])*)?)?
compiled with IGNORECASE. -/
def analysisUrlRe : RE :=
  .cat (reLitCI ['h', 't', 't', 'p'])
    (.cat (reOpt (chCI 's'))
      (.cat (reLit [':', '/', '/'])
        (.cat (rePlus (.chr urlHostChar))
          (.cat (reOpt (rePlus (.chr (fun c => c = ':' || c.isDigit))))
            (reOpt
              (.cat (chEq '/')
                (.cat (.star (.chr urlPathChar))
                  (.cat (reOpt (.cat (chEq '?') (.star (.chr urlQueryChar))))
                    (reOpt (.cat (chEq '#') (.star (.chr urlFragChar))))))))))))

/-! ### Model of urllib.parse.urlparse netloc extraction -/

def isSchemeChar (c : Char) : Bool :=
  c.isAlphanum || c = '+' || c = '-' || c = '.'

/-- Strip a syntactically valid scheme prefix up to the first colon;
urlparse keeps the url unchanged when that prefix is not a valid
scheme (first char a letter, then letters, digits, plus, minus, dot). -/
def afterScheme (url : List Char) : List Char :=
  match url.findIdx? (fun c => c = ':') with
  | none => url
  | some i =>
      if 0 < i && (url.headD ' ').isAlpha && (url.take i).all isSchemeChar then
        url.drop (i + 1)
      else url

/-- urlparse(url).netloc: nonempty only when the remainder after the
scheme starts with //, then everything up to the first of / ? #.
The ValueError branches of urlparse (bracketed IPv6 misuses) are not
modelled; the services guard them with a bare except that does not
fire on the modelled inputs. -/
def netloc (url : List Char) : List Char :=
  let rest := afterScheme url
  if rest.take 2 = ['/', '/'] then
    (rest.drop 2).takeWhile (fun c => c ≠ '/' && c ≠ '?' && c ≠ '#')
  else []

/-- Lowercased netloc with a leading www. stripped, as computed both by
the website/link analyses and by the source extractor. -/
def bareDomain (url : List Char) : List Char :=
  let d := lower (netloc url)
  if d.take 4 = ['w', 'w', 'w', '.'] then d.drop 4 else d

/-! ### AnalysisService -/

structure Competitor where
  name : List Char
  website : List Char
deriving DecidableEq, Repr

/-- Project context consumed by the analyses; an unset main website is
the empty string, matching the falsy test in the Python service. -/
structure Project where
  name : List Char
  mainWebsite : List Char
  competitors : List Competitor
deriving DecidableEq, Repr

/-- The while-find loop shared by the three mention analyses: repeated
str.find restarting at pos + 1, so overlapping occurrences are all
collected.  Fuel text.length + 1 - start always suffices. -/
def mentionLoop (pat text : List Char) : Nat → Nat → List Nat
  | 0, _ => []
  | fuel + 1, start =>
      match pyFind pat text start with
      | none => []
      | some p => p :: mentionLoop pat text fuel (p + 1)

def mentionPositions (pat text : List Char) : List Nat :=
  mentionLoop pat text (text.length + 1) 0

/-- The plus-and-minus-50-character context window around an occurrence. -/
def contextWindow (text : List Char) (pos patLen : Nat) : List Char :=
  pyStrip (pySlice text (pos - 50) (pos + patLen + 50))

structure MentionAnalysis where
  mentioned : Bool
  mentionsCount : Nat
  context : List (List Char)
deriving DecidableEq, Repr

/-- AnalysisService._analyze_brand_mentions. -/
def analyzeBrandMentions (text : List Char) (project : Project) : MentionAnalysis :=
  let brand := lower project.name
  let positions := mentionPositions brand (lower text)
  { mentioned := positions.length > 0
    mentionsCount := positions.length
    context := positions.map (fun pos => contextWindow text pos brand.length) }

/-- AnalysisService._analyze_website_mentions. -/
def analyzeWebsiteMentions (text : List Char) (project : Project) : MentionAnalysis :=
  if project.mainWebsite = [] then ⟨false, 0, []⟩
  else
    let domain := bareDomain project.mainWebsite
    let positions := mentionPositions domain (lower text)
    { mentioned := positions.length > 0
      mentionsCount := positions.length
      context := positions.map (fun pos => contextWindow text pos domain.length) }

structure LinksAnalysis where
  linked : Bool
  links : List (List Char)
  context : List (List Char)
deriving DecidableEq, Repr

/-- AnalysisService._analyze_links: all URL-pattern matches whose
domain and the target domain contain one another. -/
def analyzeLinks (text : List Char) (project : Project) : LinksAnalysis :=
  if project.mainWebsite = [] then ⟨false, [], []⟩
  else
    let targetDomain := bareDomain project.mainWebsite
    let found := (reMatches analysisUrlRe text).filterMap (fun m =>
      let url := pySlice text m.1 (m.1 + m.2.1)
      let urlDomain := bareDomain url
      if pyIn targetDomain urlDomain || pyIn urlDomain targetDomain then
        some (url, pyStrip (pySlice text (m.1 - 50) (m.1 + m.2.1 + 50)))
      else none)
    { linked := found.length > 0
      links := found.map (·.1)
      context := found.map (·.2) }

structure CompetitorDetail where
  name : List Char
  mentionsCount : Nat
  context : List (List Char)
  website : List Char
deriving DecidableEq, Repr

structure CompetitorsAnalysis where
  found : List (List Char)
  details : List CompetitorDetail
deriving DecidableEq, Repr

/-- AnalysisService._analyze_competitors. -/
def analyzeCompetitors (text : List Char) (competitors : List Competitor) :
    CompetitorsAnalysis :=
  let textLower := lower text
  let entries := competitors.filterMap (fun comp =>
    let compName := lower comp.name
    let positions := mentionPositions compName textLower
    if positions.length > 0 then
      some { name := comp.name
             mentionsCount := positions.length
             context := positions.map (fun pos => contextWindow text pos compName.length)
             website := comp.website : CompetitorDetail }
    else none)
  { found := entries.map (·.name), details := entries }

structure RankingAnalysis where
  position : Option Nat
  context : List Char
  totalItems : Nat
deriving DecidableEq, Repr

/-- The inner match scan of _analyze_rankings: skip ranks above 10,
skip items not mentioning the project, skip items without a hyperlink,
return the first remaining (rank, item). -/
def findQualifying (projectName : List Char) :
    List (List Char × List Char) → Option (Nat × List Char)
  | [] => none
  | (rankStr, item) :: rest =>
      let rank := digitsToNat rankStr
      if rank > 10 then findQualifying projectName rest
      else if pyIn projectName (lower item) then
        if reSearch analysisUrlRe item then some (rank, item)
        else findQualifying projectName rest
      else findQualifying projectName rest

/-- The outer pattern loop of _analyze_rankings: a pattern whose match
list contains no qualifying item falls through to the next pattern. -/
def rankingsLoop (projectName text : List Char) : List RE → RankingAnalysis
  | [] => ⟨none, [], 0⟩
  | pat :: rest =>
      let ms := reFindAll2 pat text
      if ms.isEmpty then rankingsLoop projectName text rest
      else
        match findQualifying projectName ms with
        | some (rank, item) => ⟨some rank, pyStrip item, ms.length⟩
        | none => rankingsLoop projectName text rest

/-- AnalysisService._analyze_rankings. -/
def analyzeRankings (text : List Char) (project : Project) : RankingAnalysis :=
  rankingsLoop (lower project.name) text rankingPatternList

/-- The position bonus of _calculate_visibility_score, including the
final else branch for positions above 10. -/
def rankingBonus : Option Nat → ℚ
  | none => 0
  | some position =>
      if position = 1 then 10
      else if position ≤ 3 then 7
      else if position ≤ 5 then 5
      else if position ≤ 10 then 3
      else 1

/-- AnalysisService._calculate_visibility_score. -/
def calculateVisibilityScore (brandMentioned websiteMentioned websiteLinked : Bool)
    (position : Option Nat) : ℚ :=
  let score : ℚ :=
    (if brandMentioned then 30 else 0) +
    (if websiteMentioned then 25 else 0) +
    (if websiteLinked then 35 else 0) +
    rankingBonus position
  pyMin 100 score

/-- The analysis record assembled by analyze_response; the
human-readable summary string is not modelled (no property refers to it). -/
structure ResponseAnalysis where
  brandMentioned : Bool
  brandMentionsCount : Nat
  brandContext : List (List Char)
  websiteMentioned : Bool
  websiteMentionsCount : Nat
  websiteContext : List (List Char)
  websiteLinked : Bool
  linksFound : List (List Char)
  linksContext : List (List Char)
  rankingPosition : Option Nat
  rankingContext : List Char
  rankingTotalItems : Nat
  competitorsMentioned : Nat
  competitorsDetails : List CompetitorDetail
  visibilityScore : ℚ
deriving DecidableEq, Repr

/-- The all-false analysis returned for blank input. -/
def emptyAnalysis : ResponseAnalysis :=
  { brandMentioned := false, brandMentionsCount := 0, brandContext := []
    websiteMentioned := false, websiteMentionsCount := 0, websiteContext := []
    websiteLinked := false, linksFound := [], linksContext := []
    rankingPosition := none, rankingContext := [], rankingTotalItems := 0
    competitorsMentioned := 0, competitorsDetails := []
    visibilityScore := 0 }

/-- AnalysisService.analyze_response with the competitors defaulted to
the project's own competitor list, as on the production path. -/
def analyzeResponse (text : List Char) (project : Project) : ResponseAnalysis :=
  if pyStrip text = [] then emptyAnalysis
  else
    let brand := analyzeBrandMentions text project
    let website := analyzeWebsiteMentions text project
    let links := analyzeLinks text project
    let comps := analyzeCompetitors text project.competitors
    let ranking := analyzeRankings text project
    { brandMentioned := brand.mentioned
      brandMentionsCount := brand.mentionsCount
      brandContext := brand.context
      websiteMentioned := website.mentioned
      websiteMentionsCount := website.mentionsCount
      websiteContext := website.context
      websiteLinked := links.linked
      linksFound := links.links
      linksContext := links.context
      rankingPosition := ranking.position
      rankingContext := ranking.context
      rankingTotalItems := ranking.totalItems
      competitorsMentioned := comps.found.length
      competitorsDetails := comps.details
      visibilityScore :=
        calculateVisibilityScore brand.mentioned website.mentioned links.linked
          ranking.position }

/-! ### PromptService -/

/-- ASCII identifier characters of the variable pattern
\x7b([a-zA-Z_][a-zA-Z0-9_]*)\x7d. -/
def isIdentStart (c : Char) : Bool := c.isAlpha || c = '_'

def isIdentChar (c : Char) : Bool := c.isAlphanum || c = '_'

/-- findall of the variable pattern: scan for an opening brace followed
by a valid identifier and a closing brace; a failed attempt advances
one character, a match resumes after its closing brace. -/
def varScan : Nat → List Char → List (List Char)
  | 0, _ => []
  | _ + 1, [] => []
  | fuel + 1, c :: rest =>
      if c = '{' then
        match rest with
        | [] => []
        | d :: rest2 =>
            if isIdentStart d then
              let run := rest2.takeWhile isIdentChar
              let after := rest2.drop run.length
              match after with
              | '}' :: rest3 => (d :: run) :: varScan fuel rest3
              | _ => varScan fuel rest
            else varScan fuel rest
      else varScan fuel rest

/-- PromptService.extract_variables: the set of referenced identifiers.
Python stores them in a set with unspecified iteration order; the model
fixes first-occurrence order. -/
def extractVariables (template : List Char) : List (List Char) :=
  ((varScan (template.length + 1) template).foldl
    (fun acc v => if acc.contains v then acc else acc ++ [v]) [])

/-- Python str.replace: all non-overlapping occurrences, left to right. -/
def pyReplace (old new : List Char) : Nat → List Char → List Char
  | 0, s => s
  | fuel + 1, s =>
      match s with
      | [] => []
      | c :: rest =>
          if old ≠ [] && occursAt old s 0 then
            new ++ pyReplace old new fuel (s.drop old.length)
          else c :: pyReplace old new fuel rest

/-- Variable dictionaries as association lists; the merged dictionary
gives custom (override) values priority over project values. -/
abbrev VarMap := List (List Char × List Char)

def lookupVar (projectVars customVars : VarMap) (v : List Char) : Option (List Char) :=
  match customVars.lookup v with
  | some x => some x
  | none => projectVars.lookup v

/-- Python ", ".join. -/
def joinCommaSpace : List (List Char) → List Char
  | [] => []
  | [x] => x
  | x :: rest => x ++ [',', ' '] ++ joinCommaSpace rest

structure SubstitutionOutcome where
  success : Bool
  errorMsg : Option (List Char)
  prompt : List Char
  variablesUsed : VarMap
  missingVariables : List (List Char)
deriving DecidableEq, Repr

/-- PromptService.substitute_variables.  The required-variable set is
traversed in first-occurrence order (Python iterates a set in an
unspecified but fixed order; every order yields the same success flag,
missing set and used map). -/
def substituteVariables (template : List Char)
    (projectVars customVars : VarMap) : SubstitutionOutcome :=
  let required := extractVariables template
  let missing := required.filter (fun v => (lookupVar projectVars customVars v).isNone)
  if missing ≠ [] then
    { success := false
      errorMsg := some ("Variables manquantes: ".data ++ joinCommaSpace missing)
      prompt := template
      variablesUsed := []
      missingVariables := missing }
  else
    { success := true
      errorMsg := none
      prompt := required.foldl
        (fun acc v =>
          pyReplace ('{' :: v ++ ['}']) ((lookupVar projectVars customVars v).getD [])
            (acc.length + 1) acc) template
      variablesUsed := required.map (fun v => (v, (lookupVar projectVars customVars v).getD []))
      missingVariables := [] }

/-- findall of the malformed-token pattern of validate_template,
\x7b[^a-zA-Z_][^\x7d]*\x7d: an opening brace, one character that cannot
start an identifier, anything up to the next closing brace. -/
def malformedScan : Nat → List Char → List (List Char)
  | 0, _ => []
  | _ + 1, [] => []
  | fuel + 1, c :: rest =>
      if c = '{' then
        match rest with
        | [] => []
        | d :: rest2 =>
            if isIdentStart d then malformedScan fuel rest
            else
              let run := rest2.takeWhile (fun e => e ≠ '}')
              match rest2.drop run.length with
              | '}' :: rest3 =>
                  ('{' :: d :: (run ++ ['}'])) :: malformedScan fuel rest3
              | _ => malformedScan fuel rest
      else malformedScan fuel rest

structure TemplateValidation where
  valid : Bool
  varsFound : List (List Char)
  malformed : List (List Char)
deriving DecidableEq, Repr

/-- PromptService.validate_template: a blank template, a malformed
token or unbalanced brace counts make it invalid. -/
def validateTemplate (template : List Char) : TemplateValidation :=
  if pyStrip template = [] then { valid := false, varsFound := [], malformed := [] }
  else
    let vs := extractVariables template
    let malformed := malformedScan (template.length + 1) template
    if malformed ≠ [] then { valid := false, varsFound := vs, malformed := malformed }
    else if (template.count '{') ≠ (template.count '}') then
      { valid := false, varsFound := vs, malformed := [] }
    else { valid := true, varsFound := vs, malformed := [] }

/-! ### SourceExtractor -/

/-- URL_PATTERN = https?://[^\s)\x5d]+ with IGNORECASE. -/
def extractorUrlRe : RE :=
  .cat (reLitCI ['h', 't', 't', 'p'])
    (.cat (reOpt (chCI 's'))
      (.cat (reLit [':', '/', '/'])
        (rePlus (.chr (fun c => !pyIsSpace c && c ≠ ')' && c ≠ ']')))))

/-- MD_LINK_PATTERN = \x5b([^\x5d]+)\x5d\((https?://[^)]+)\), case sensitive. -/
def mdLinkRe : RE :=
  .cat (chEq '[')
    (.cat (.grp 1 (rePlus (.chr (fun c => c ≠ ']'))))
      (.cat (chEq ']')
        (.cat (chEq '(')
          (.cat (.grp 2
            (.cat (reLit ['h', 't', 't', 'p'])
              (.cat (reOpt (chEq 's'))
                (.cat (reLit [':', '/', '/'])
                  (rePlus (.chr (fun c => c ≠ ')')))))))
            (chEq ')')))))

/-- FOOTNOTE_LABEL_PATTERN = \x5b(\d+)\x5d. -/
def footnoteRe : RE :=
  .cat (chEq '[') (.cat (.grp 1 (rePlus reDigit)) (chEq ']'))

/-- Python str.rstrip(').,;'). -/
def rstripPunct (s : List Char) : List Char :=
  (s.reverse.dropWhile (fun c => c = ')' || c = '.' || c = ',' || c = ';')).reverse

structure Source where
  url : List Char
  title : Option (List Char)
  domain : List Char
  snippet : List Char
  citationLabel : Option (List Char)
  position : Nat
deriving DecidableEq, Repr

/-- SourceExtractor._extract_snippet with its default radius 80. -/
def extractSnippet (text : List Char) (pos : Nat) : List Char :=
  pyStrip (pySlice text (pos - 80) (pos + 80))

/-- dict.setdefault on an insertion-ordered association list. -/
def addIfAbsent (m : List (List Char × Source)) (url : List Char) (s : Source) :
    List (List Char × Source) :=
  if (m.lookup url).isSome then m else m ++ [(url, s)]

/-- Stable ascending insertion by key, reproducing Python sorted. -/
def insAsc (key : α → Nat) (e : α) : List α → List α
  | [] => [e]
  | x :: xs => if key e < key x then e :: x :: xs else x :: insAsc key e xs

def pySortAsc (key : α → Nat) (l : List α) : List α :=
  l.foldl (fun acc e => insAsc key e acc) []

/-- Strategy 1: Markdown links. -/
def extractStep1 (text : List Char) (m0 : List (List Char × Source)) :
    List (List Char × Source) :=
  (reMatches mdLinkRe text).foldl (fun acc m =>
    let title := pyStrip ((m.2.2.lookup 1).getD [])
    let url := pyStrip ((m.2.2.lookup 2).getD [])
    addIfAbsent acc url
      { url := url, title := some title, domain := bareDomain url
        snippet := extractSnippet text m.1, citationLabel := none, position := m.1 }) m0

/-- Strategy 2: bare URLs. -/
def extractStep2 (text : List Char) (m0 : List (List Char × Source)) :
    List (List Char × Source) :=
  (reMatches extractorUrlRe text).foldl (fun acc m =>
    let url := rstripPunct (pyStrip (pySlice text m.1 (m.1 + m.2.1)))
    addIfAbsent acc url
      { url := url, title := none, domain := bareDomain url
        snippet := extractSnippet text m.1, citationLabel := none, position := m.1 }) m0

/-- Strategy 3: a 2000-character window after a Sources/References heading. -/
def extractStep3 (text : List Char) (m0 : List (List Char × Source)) :
    List (List Char × Source) :=
  ["Sources:".data, "Références:".data, "References:".data].foldl
    (fun acc label =>
      match pyFind (lower label) (lower text) 0 with
      | none => acc
      | some idx =>
          let tail := pySlice text idx (idx + 2000)
          (reMatches extractorUrlRe tail).foldl (fun acc2 m =>
            let url := rstripPunct (pyStrip (pySlice tail m.1 (m.1 + m.2.1)))
            addIfAbsent acc2 url
              { url := url, title := none, domain := bareDomain url
                snippet := extractSnippet text (idx + m.1), citationLabel := none
                position := idx + m.1 }) acc) m0

/-- Strategy 4: footnote labels with the nearest URL in a window. -/
def extractStep4 (text : List Char) (m0 : List (List Char × Source)) :
    List (List Char × Source) :=
  (reMatches footnoteRe text).foldl (fun acc m =>
    let label := '[' :: ((m.2.2.lookup 1).getD []) ++ [']']
    let windowStart := m.1 - 200
    let window := pySlice text windowStart (m.1 + m.2.1 + 400)
    match reFirstFrom extractorUrlRe (window.length + 1) window 0 with
    | none => acc
    | some um =>
        let url := rstripPunct (pyStrip (pySlice window um.1 (um.1 + um.2.1)))
        addIfAbsent acc url
          { url := url, title := none, domain := bareDomain url
            snippet := extractSnippet text (windowStart + um.1)
            citationLabel := some label, position := windowStart + um.1 }) m0

/-- SourceExtractor.extract. -/
def extract (text : List Char) (maxItems : Nat := 20) : List Source :=
  if pyStrip text = [] then []
  else
    let m := extractStep4 text (extractStep3 text (extractStep2 text (extractStep1 text [])))
    (pySortAsc (·.position) (m.map (·.2))).take maxItems

/-! ### AdvancedTopicsClassifier: keyword counting -/

/-- Python round to d decimal digits, with the documented
round-half-to-even tie rule over exact rationals. -/
def roundHalfEven (x : ℚ) : ℤ :=
  let f := ⌊x⌋
  let r := x - f
  if r < 1 / 2 then f
  else if 1 / 2 < r then f + 1
  else if Even f then f else f + 1

def pyRound (d : Nat) (x : ℚ) : ℚ :=
  ((roundHalfEven (x * 10 ^ d) : ℤ) : ℚ) / 10 ^ d

/-- Non-overlapping literal occurrences: the scan resumes after each
match, as re.findall does on an escaped pattern. -/
def nonOverlapFrom (pat text : List Char) : Nat → Nat → List Nat
  | 0, _ => []
  | fuel + 1, i =>
      match pyFind pat text i with
      | none => []
      | some p => p :: nonOverlapFrom pat text fuel (p + pat.length)

def literalOccurrences (pat text : List Char) : List Nat :=
  if pat = [] then List.range (text.length + 1)
  else nonOverlapFrom pat text (text.length + 1) 0

/-- Is there a word character at index j. -/
def hasWordAt (text : List Char) (j : Nat) : Bool :=
  decide (j < text.length) && isWordChar (text.getD j ' ')

/-- The regex word boundary \b between indices j-1 and j. -/
def boundaryAt (text : List Char) (j : Nat) : Bool :=
  (if j = 0 then false else hasWordAt text (j - 1)) != hasWordAt text j

/-- First position at or after i where pat occurs between word boundaries. -/
def wordBoundedFind (pat text : List Char) (i : Nat) : Option Nat :=
  (List.range (text.length + 1)).find? (fun p =>
    decide (i ≤ p) && occursAt pat text p && boundaryAt text p &&
      boundaryAt text (p + pat.length))

/-- Non-overlapping occurrences of \b pat \b. -/
def wordBoundedFrom (pat text : List Char) : Nat → Nat → List Nat
  | 0, _ => []
  | fuel + 1, i =>
      match wordBoundedFind pat text i with
      | none => []
      | some p => p :: wordBoundedFrom pat text fuel (p + pat.length)

def wordBoundedOccurrences (pat text : List Char) : List Nat :=
  if pat = [] then (List.range (text.length + 1)).filter (boundaryAt text)
  else wordBoundedFrom pat text (text.length + 1) 0

/-- AdvancedTopicsClassifier._count_keyword_with_context: multi-word
keywords are counted as plain substrings, single words between word
boundaries; both sides are lowercased. -/
def countKeyword (kw text : List Char) : Nat :=
  let kwl := lower kw
  let tl := lower text
  if kw.contains ' ' then (literalOccurrences kwl tl).length
  else (wordBoundedOccurrences kwl tl).length

/-- AdvancedTopicsClassifier._extract_keyword_contexts: plain literal
occurrences, a window of context_window_size * 5 = 50 characters each
side, deduplicated, stopping at maxContexts. -/
def extractKeywordContexts (text kw : List Char) (maxContexts : Nat) : List (List Char) :=
  (literalOccurrences (lower kw) (lower text)).foldl (fun acc p =>
    if acc.length ≥ maxContexts then acc
    else
      let ctx := pyStrip (pySlice text (p - 50) (p + (lower kw).length + 50))
      if ctx ≠ [] && !acc.contains ctx then acc ++ [ctx] else acc) []

/-! ### AdvancedTopicsClassifier: business topics -/

structure TopicConfig where
  topic : List Char
  keywords : List (List Char)
  weight : ℚ
deriving DecidableEq, Repr

structure TopicMatch where
  keyword : List Char
  count : Nat
  contexts : List (List Char)
deriving DecidableEq, Repr

structure TopicResult where
  topic : List Char
  score : ℚ
  rawScore : Nat
  weight : ℚ
  relevance : List Char
  matchesCount : Nat
  topKeywords : List (List Char)
  sampleContexts : List (List Char)
deriving DecidableEq, Repr

/-- SCORING_CONFIG topic_relevance_thresholds. -/
def topicHighThreshold : ℚ := 5
def topicMediumThreshold : ℚ := 2

/-- SCORING_CONFIG max_topics_returned. -/
def maxTopicsReturned : Nat := 5

/-- AdvancedTopicsClassifier._calculate_topic_relevance. -/
def calculateTopicRelevance (score : ℚ) : List Char :=
  if score ≥ topicHighThreshold then "high".data
  else if score ≥ topicMediumThreshold then "medium".data
  else "low".data

/-- Stable descending insertion by key, reproducing list.sort with
reverse=True. -/
def insDesc (key : α → ℚ) (e : α) : List α → List α
  | [] => [e]
  | x :: xs => if key x < key e then e :: x :: xs else x :: insDesc key e xs

def pySortDesc (key : α → ℚ) (l : List α) : List α :=
  l.foldl (fun acc e => insDesc key e acc) []

/-- The per-keyword match records of one topic in
_classify_business_topics. -/
def topicMatches (text : List Char) (cfg : TopicConfig) : List TopicMatch :=
  cfg.keywords.filterMap (fun kw =>
    let c := countKeyword kw text
    if c > 0 then
      some ({ keyword := kw, count := c,
              contexts := extractKeywordContexts text kw 1 } : TopicMatch)
    else none)

/-- The per-topic accumulation of _classify_business_topics. -/
def topicEntry (text : List Char) (cfg : TopicConfig) : Option TopicResult :=
  let ms := topicMatches text cfg
  let score : Nat := ms.foldl (fun a m => a + m.count) 0
  if score > 0 then
    let weighted := (score : ℚ) * cfg.weight
    some { topic := cfg.topic
           score := pyRound 1 weighted
           rawScore := score
           weight := cfg.weight
           relevance := calculateTopicRelevance weighted
           matchesCount := ms.length
           topKeywords := (ms.take 3).map (·.keyword)
           sampleContexts := (ms.flatMap (·.contexts)).take 2 }
  else none

/-- AdvancedTopicsClassifier._classify_business_topics. -/
def classifyBusinessTopics (topics : List TopicConfig) (text : List Char) :
    List TopicResult :=
  (pySortDesc (·.score) (topics.filterMap (topicEntry text))).take maxTopicsReturned

/-! ### AdvancedTopicsClassifier: SEO intent -/

structure IntentCategory where
  category : List Char
  keywords : List (List Char)
deriving DecidableEq, Repr

structure IntentConfig where
  intent : List Char
  weight : ℚ
  categories : List IntentCategory
deriving DecidableEq, Repr

structure CategoryMatch where
  category : List Char
  score : Nat
  matchList : List TopicMatch
deriving DecidableEq, Repr

/-- Per-intent total raw score and matched categories. -/
def intentScan (text : List Char) (cfg : IntentConfig) : Nat × List CategoryMatch :=
  let cats := cfg.categories.filterMap (fun cat =>
    let kms := cat.keywords.filterMap (fun kw =>
      let c := countKeyword kw text
      if c > 0 then
        some ({ keyword := kw, count := c,
                contexts := extractKeywordContexts text kw 2 } : TopicMatch)
      else none)
    if kms ≠ [] then
      some ({ category := cat.category
              score := kms.foldl (fun a m => a + m.count) 0
              matchList := kms } : CategoryMatch)
    else none)
  (cats.foldl (fun a c => a + c.score) 0, cats)

structure SeoIntentResult where
  mainIntent : List Char
  confidence : ℚ
  allScores : List (List Char × ℚ)
  detailedMatches : List CategoryMatch
deriving DecidableEq, Repr

/-- First key attaining the maximal value, as Python max over a dict in
insertion order. -/
def argmaxFirst (dflt : List Char) : List (List Char × ℚ) → List Char
  | [] => dflt
  | (k0, v0) :: rest =>
      (rest.foldl (fun best p => if best.2 < p.2 then p else best) (k0, v0)).1

/-- AdvancedTopicsClassifier._classify_seo_intent. -/
def classifySeoIntent (configs : List IntentConfig) (text : List Char) :
    SeoIntentResult :=
  let scored := configs.map (fun c =>
    let (total, cats) := intentScan text c
    (c.intent, (total : ℚ) * c.weight, cats))
  let scores := scored.map (fun t => (t.1, t.2.1))
  let total : ℚ := scores.foldl (fun a p => a + p.2) 0
  let mainIntent := if total = 0 then "informational".data else argmaxFirst "informational".data scores
  let confidence : ℚ :=
    if total = 0 then 1 / 10
    else ((scores.lookup mainIntent).getD 0) / total
  { mainIntent := mainIntent
    confidence := pyRound 2 confidence
    allScores := scores.map (fun p => (p.1, pyRound 1 p.2))
    detailedMatches := ((scored.find? (fun t => t.1 = mainIntent)).map (·.2.2)).getD [] }

/-! ### AdvancedTopicsClassifier: content type, entities, keywords -/

structure ContentPatternCfg where
  ctype : List Char
  keywords : List (List Char)
  expressions : List (List Char)
deriving DecidableEq, Repr

structure ContentTypeResult where
  mainType : List Char
  confidence : ℚ
  allScores : List (List Char × Nat)
deriving DecidableEq, Repr

/-- Score of one content pattern: 2 per curated expression contained in
the text plus the keyword occurrence counts. -/
def contentScore (text : List Char) (cfg : ContentPatternCfg) : Nat :=
  2 * (cfg.expressions.filter (fun e => pyIn e text)).length +
    cfg.keywords.foldl (fun a kw => a + countKeyword kw text) 0

def argmaxFirstNat (dflt : List Char) : List (List Char × Nat) → List Char
  | [] => dflt
  | (k0, v0) :: rest =>
      (rest.foldl (fun best p => if best.2 < p.2 then p else best) (k0, v0)).1

/-- AdvancedTopicsClassifier._detect_content_type. -/
def detectContentType (patterns : List ContentPatternCfg) (text : List Char) :
    ContentTypeResult :=
  let allScores := patterns.map (fun c => (c.ctype, contentScore text c))
  let total : Nat := allScores.foldl (fun a p => a + p.2) 0
  if total = 0 then
    { mainType := "general".data, confidence := pyRound 2 (1 / 10), allScores := allScores }
  else
    let mainType := argmaxFirstNat "general".data allScores
    { mainType := mainType
      confidence := pyRound 2 (((allScores.lookup mainType).getD 0 : ℚ) / total)
      allScores := allScores }

structure EntityHit where
  name : List Char
  count : Nat
  contexts : List (List Char)
deriving DecidableEq, Repr

/-- AdvancedTopicsClassifier._extract_sector_entities. -/
def extractSectorEntities (sectorKeywords : List (List Char × List (List Char)))
    (text : List Char) : List (List Char × List EntityHit) :=
  sectorKeywords.filterMap (fun p =>
    let found := p.2.filterMap (fun e =>
      let c := countKeyword e text
      if c > 0 then
        some ({ name := e, count := c,
                contexts := extractKeywordContexts text e 1 } : EntityHit)
      else none)
    if found ≠ [] then
      some (p.1, (pySortDesc (fun h => (h.count : ℚ)) found).take 10)
    else none)

/-- Stop words of _extract_semantic_keywords. -/
def stopWords : List (List Char) :=
  ["le", "la", "les", "de", "du", "des", "et", "est", "sont", "avec", "pour",
   "dans", "sur", "par", "plus", "très", "tout", "tous", "toute", "toutes",
   "avoir", "être", "faire", "dire", "aller", "voir", "savoir", "pouvoir",
   "falloir", "vouloir", "venir", "mettre", "prendre", "donner", "passer"].map
    String.data

/-- Maximal word-character runs, as matched by \b\w{3,}\b with findall. -/
def wordRunsAux : Nat → List Char → List (List Char)
  | 0, _ => []
  | _ + 1, [] => []
  | fuel + 1, c :: rest =>
      if isWordChar c then
        let run := rest.takeWhile isWordChar
        (c :: run) :: wordRunsAux fuel (rest.drop run.length)
      else wordRunsAux fuel rest

def wordRuns (l : List Char) : List (List Char) := wordRunsAux (l.length + 1) l

/-- Python str.isdigit on the modelled fragment. -/
def allDigits (s : List Char) : Bool := s ≠ [] && s.all Char.isDigit

/-- Occurrence counting in first-appearance order, as a defaultdict
filled by a left-to-right loop. -/
def countsInOrder (ws : List (List Char)) : List (List Char × Nat) :=
  ws.foldl (fun acc w =>
    match acc.lookup w with
    | some _ => acc.map (fun p => if p.1 = w then (p.1, p.2 + 1) else p)
    | none => acc ++ [(w, 1)]) []

/-- AdvancedTopicsClassifier._extract_semantic_keywords. -/
def extractSemanticKeywords (text : List Char) : List (List Char) :=
  let words := (wordRuns text).filter (fun w => w.length ≥ 3)
  let counted := countsInOrder
    ((words.filter (fun w => !stopWords.contains (lower w) && !allDigits w)).map lower)
  (((pySortDesc (fun p => (p.2 : ℚ)) counted).take 20).filter (fun p => p.2 ≥ 2)).map (·.1)

/-! ### AdvancedTopicsClassifier: global confidence and classify_full -/

/-- AdvancedTopicsClassifier._calculate_global_confidence. -/
def calculateGlobalConfidence (seo : SeoIntentResult) (topics : List TopicResult)
    (content : ContentTypeResult) (entities : List (List Char × List EntityHit)) : ℚ :=
  let highTopics := (topics.filter (fun t => t.relevance = "high".data)).length
  let businessBonus := pyMin (3 / 10) ((highTopics : ℚ) * (15 / 100))
  let entitiesCount : Nat := entities.foldl (fun a p => a + p.2.length) 0
  let entitiesBonus := pyMin (2 / 10) ((entitiesCount : ℚ) * (3 / 100))
  pyMin 1 (pyRound 2
    (seo.confidence * (4 / 10) + content.confidence * (3 / 10) + businessBonus + entitiesBonus))

/-- The regex cleanup of _preprocess_text: any character that is not a
word character, whitespace, hyphen, apostrophe or kept accent becomes a
space. -/
def cleanupChar (c : Char) : Char :=
  if isWordChar c || pyIsSpace c || c = '-' || c = '\'' then c else ' '

/-- Whitespace-run collapapsing of _preprocess_text. -/
def collapseSpacesAux : List Char → Bool → List Char
  | [], _ => []
  | c :: rest, prev =>
      if pyIsSpace c then
        if prev then collapseSpacesAux rest true else ' ' :: collapseSpacesAux rest true
      else c :: collapseSpacesAux rest false

/-- AdvancedTopicsClassifier._preprocess_text. -/
def preprocessText (text : List Char) : List Char :=
  pyStrip (collapseSpacesAux (text.map cleanupChar) false)

structure ClassifierConfig where
  seo : List IntentConfig
  topics : List TopicConfig
  contentPatterns : List ContentPatternCfg
  sectorKeywords : List (List Char × List (List Char))
deriving Repr

structure Classification where
  seoIntent : SeoIntentResult
  businessTopics : List TopicResult
  contentType : ContentTypeResult
  sectorEntities : List (List Char × List EntityHit)
  semanticKeywords : List (List Char)
  confidence : ℚ
deriving DecidableEq, Repr

/-- AdvancedTopicsClassifier.classify_full.  The embedding is total, so
the except-branch returning the default classification is unreachable. -/
def classifyFull (cfg : ClassifierConfig) (prompt aiResponse : List Char) :
    Classification :=
  let fullText := lower (prompt ++ [' '] ++ aiResponse)
  let cleaned := preprocessText fullText
  let seo := classifySeoIntent cfg.seo cleaned
  let topics := classifyBusinessTopics cfg.topics cleaned
  let content := detectContentType cfg.contentPatterns cleaned
  let entities := extractSectorEntities cfg.sectorKeywords cleaned
  { seoIntent := seo
    businessTopics := topics
    contentType := content
    sectorEntities := entities
    semanticKeywords := extractSemanticKeywords cleaned
    confidence := calculateGlobalConfidence seo topics content entities }

/-- SEO_INTENT_KEYWORDS, categories in source order, weight separate. -/
def seoIntentConfigs : List IntentConfig := [
  { intent := "commercial".data, weight := (2 : ℚ),
    categories := [
     { category := "comparaison".data, keywords := (["vs", "versus", "contre", "comparaison", "différence", "compare", "comparer", "face à face", "côte à côte"].map String.data) },
     { category := "choix".data, keywords := (["meilleur", "meilleure", "meilleures", "top", "classement", "ranking", "choisir", "sélectionner", "recommandé"].map String.data) },
     { category := "alternatives".data, keywords := (["alternative", "concurrent", "remplacer", "substitut", "équivalent", "similaire", "plutôt que"].map String.data) },
     { category := "achat".data, keywords := (["acheter", "achat", "commander", "commande", "boutique", "magasin", "vendeur", "distributeur", "fournisseur"].map String.data) },
     { category := "prix".data, keywords := (["prix", "coût", "coûte", "tarif", "budget", "gratuit", "payant", "abonnement", "licence", "investissement"].map String.data) },
     { category := "evaluation".data, keywords := (["avis", "test", "review", "évaluation", "note", "recommandation", "opinion", "retour", "expérience"].map String.data) },
     { category := "decision".data, keywords := (["conseillé", "suggéré", "propose", "recommande", "convient", "adapté", "idéal", "parfait"].map String.data) },
     { category := "qualite_prix".data, keywords := (["rapport qualité prix", "vaut le coup", "bon plan", "rentable", "pas donné", "abordable"].map String.data) }] },
  { intent := "informational".data, weight := (1 : ℚ),
    categories := [
     { category := "questions".data, keywords := (["comment", "pourquoi", "qu'est-ce", "que", "quoi", "qui", "où", "quand", "combien"].map String.data) },
     { category := "definitions".data, keywords := (["définition", "signifie", "veut dire", "c'est quoi", "qu'est-ce que", "définir"].map String.data) },
     { category := "explanations".data, keywords := (["explication", "explique", "principe", "fonctionnement", "marche", "fonctionne"].map String.data) },
     { category := "guides".data, keywords := (["guide", "tutoriel", "tuto", "manuel", "documentation", "aide", "mode d'emploi"].map String.data) },
     { category := "learning".data, keywords := (["apprendre", "comprendre", "savoir", "connaître", "découvrir", "étudier"].map String.data) },
     { category := "types".data, keywords := (["types", "sortes", "catégories", "genres", "variétés", "modèles", "versions"].map String.data) },
     { category := "history".data, keywords := (["histoire", "origine", "évolution", "développement", "création", "invention"].map String.data) },
     { category := "general_info".data, keywords := (["information", "renseigner", "informer", "détails", "précisions"].map String.data) }] },
  { intent := "transactional".data, weight := ((3 : ℚ) / 2),
    categories := [
     { category := "installation".data, keywords := (["installer", "installation", "configurer", "configuration", "paramétrer", "setup", "mise en place"].map String.data) },
     { category := "utilisation".data, keywords := (["utiliser", "utilisation", "démarrer", "lancer", "activer", "mettre en marche", "démarrage"].map String.data) },
     { category := "maintenance".data, keywords := (["réparer", "dépanner", "maintenance", "entretien", "nettoyer", "vérifier", "réparation"].map String.data) },
     { category := "programmation".data, keywords := (["programmer", "paramétrer", "régler", "ajuster", "personnaliser", "customiser"].map String.data) },
     { category := "download".data, keywords := (["télécharger", "download", "installer", "application", "app", "logiciel"].map String.data) },
     { category := "etapes".data, keywords := (["étapes", "procédure", "méthode", "processus", "marche à suivre", "instruction"].map String.data) },
     { category := "troubleshooting".data, keywords := (["problème", "erreur", "bug", "panne", "dysfonctionnement", "ne marche pas", "résoudre"].map String.data) },
     { category := "actions".data, keywords := (["créer", "faire", "réaliser", "effectuer", "exécuter", "accomplir"].map String.data) }] },
  { intent := "navigational".data, weight := ((1 : ℚ) / 2),
    categories := [
     { category := "contact".data, keywords := (["contact", "contacter", "joindre", "téléphone", "email", "adresse", "coordonnées"].map String.data) },
     { category := "site".data, keywords := (["site officiel", "site web", "website", "page", "url", "lien", "site internet"].map String.data) },
     { category := "support".data, keywords := (["support", "assistance", "aide", "service client", "helpdesk", "support technique"].map String.data) },
     { category := "account".data, keywords := (["compte", "connexion", "login", "inscription", "profil", "enregistrement"].map String.data) },
     { category := "company".data, keywords := (["entreprise", "société", "compagnie", "marque", "fabricant", "constructeur"].map String.data) },
     { category := "location".data, keywords := (["où trouver", "magasin", "revendeur", "distributeur", "proche", "près de chez"].map String.data) },
     { category := "download_official".data, keywords := (["télécharger depuis", "version officielle", "authentique", "original"].map String.data) },
     { category := "access".data, keywords := (["accéder", "aller sur", "se rendre", "visiter", "consulter"].map String.data) }] }
]

/-- BUSINESS_TOPICS for the default sector domotique. -/
def domotiqueTopics : List TopicConfig := [
  { topic := "pricing".data, weight := (1 : ℚ),
    keywords := (["prix", "coût", "tarif", "budget", "investissement", "rentabilité", "économie", "pas cher", "abordable", "onéreux", "gratuit", "payant", "subscription", "abonnement", "rapport qualité prix", "amortissement", "retour sur investissement", "ROI"].map String.data) },
  { topic := "features".data, weight := (1 : ℚ),
    keywords := (["fonction", "fonctionnalité", "option", "caractéristique", "capacité", "possibilité", "performance", "qualité", "avantage", "bénéfice", "atout", "innovation", "nouveauté", "évolution", "amélioration"].map String.data) },
  { topic := "installation".data, weight := ((6 : ℚ) / 5),
    keywords := (["installation", "installer", "montage", "pose", "configuration", "setup", "câblage", "branchement", "connexion", "raccordement", "mise en service", "facilité installation", "plug and play", "prêt à l'emploi"].map String.data) },
  { topic := "compatibility".data, weight := ((11 : ℚ) / 10),
    keywords := (["compatible", "compatibilité", "intégration", "fonctionne avec", "support", "protocole", "standard", "norme", "interopérabilité", "ouvert", "écosystème", "connectivité", "liaison"].map String.data) },
  { topic := "security".data, weight := ((13 : ℚ) / 10),
    keywords := (["sécurité", "sécurisé", "protection", "chiffrement", "cryptage", "piratage", "vulnérabilité", "authentification", "mot de passe", "confidentialité", "privacy", "données personnelles", "RGPD"].map String.data) },
  { topic := "automation".data, weight := ((6 : ℚ) / 5),
    keywords := (["automatisation", "automatique", "programmable", "scénario", "routine", "intelligence", "smart", "intelligent", "adaptatif", "apprentissage", "IA", "machine learning", "algorithme"].map String.data) },
  { topic := "control".data, weight := (1 : ℚ),
    keywords := (["contrôle", "commande", "pilotage", "gestion", "supervision", "monitoring", "surveillance", "télécommande", "application mobile", "app", "interface", "dashboard", "tableau de bord"].map String.data) },
  { topic := "energy".data, weight := ((7 : ℚ) / 5),
    keywords := (["énergie", "énergétique", "consommation", "économie", "efficacité", "optimisation", "chauffage", "climatisation", "éclairage", "électricité", "isolation", "thermique", "température"].map String.data) }
]

/-- SECTOR_SPECIFIC_KEYWORDS for domotique. -/
def domotiqueSectorKeywords : List (List Char × List (List Char)) := [
  ("brands".data, (["Somfy", "Legrand", "Schneider Electric", "Honeywell", "Control4", "Fibaro", "Devolo", "Zipato", "Vera", "SmartThings", "Hubitat", "Jeedom", "Home Assistant", "Netatmo", "Philips Hue", "IKEA Tradfri", "Xiaomi", "Aqara", "Shelly"].map String.data)),
  ("products".data, (["TaHoma", "Connexoon", "Home + Control", "Wiser", "Céliane", "Mosaic", "Dexxo", "Oximo", "Yslo", "Evolvia", "Smoove", "Situo", "Nina"].map String.data)),
  ("technologies".data, (["Z-Wave", "Zigbee", "KNX", "WiFi", "Thread", "Matter", "EnOcean", "Bluetooth", "LoRa", "RF433", "Infrarouge", "Mesh", "X10"].map String.data)),
  ("devices".data, (["volet roulant", "store", "portail", "garage", "éclairage", "prise connectée", "interrupteur", "détecteur", "capteur", "caméra", "thermostat", "radiateur", "serrure connectée", "sonnette", "alarme", "sirène"].map String.data)),
  ("functions".data, (["programmation", "scénario", "automatisation", "géolocalisation", "planning", "minuterie", "temporisation", "condition", "trigger", "action", "routine", "simulation présence", "mode absence"].map String.data))
]

/-- The five content pattern families of _setup_patterns, with their
expression lists drawn from FRENCH_EXPRESSIONS. -/
def contentPatternConfigs : List ContentPatternCfg := [
  { ctype := "comparison".data,
    keywords := (["vs", "versus", "comparaison", "différence", "face à face", "par rapport"].map String.data),
    expressions := (["face à face", "côte à côte", "en comparaison", "par rapport à", "contrairement à", "à la différence de", "tandis que", "alors que", "en revanche", "au contraire", "plutôt que", "à la place de", "en opposition", "versus"].map String.data) },
  { ctype := "tutorial".data,
    keywords := (["comment", "tutoriel", "guide", "étapes", "procédure", "méthode"].map String.data),
    expressions := ([].map String.data) },
  { ctype := "review".data,
    keywords := (["avis", "test", "review", "évaluation", "expérience", "opinion"].map String.data),
    expressions := (["je recommande", "je conseille", "je suggère", "à privilégier", "à éviter", "excellent choix", "parfait pour", "idéal si", "convient bien", "adapté aux", "destiné aux", "pensé pour", "fait pour", "conçu pour"].map String.data) },
  { ctype := "list".data,
    keywords := (["meilleur", "top", "liste", "sélection", "classement"].map String.data),
    expressions := ([].map String.data) },
  { ctype := "technical".data,
    keywords := (["spécification", "caractéristique", "technique", "performance"].map String.data),
    expressions := (["facile à utiliser", "prise en main", "courbe d'apprentissage", "plug and play", "prêt à l'emploi", "paramétrage avancé", "mode expert", "interface intuitive", "ergonomie soignée", "user friendly", "clé en main"].map String.data) }
]

/-- The classifier configuration for the default domotique sector. -/
def domotiqueConfig : ClassifierConfig :=
  { seo := seoIntentConfigs, topics := domotiqueTopics,
    contentPatterns := contentPatternConfigs,
    sectorKeywords := domotiqueSectorKeywords }

/-! ### ExecutionJobManager

run_project_prompts is a cooperative-concurrency loop: each per-prompt
coroutine mutates the shared job record in one uninterrupted critical
section (no await separates the counter updates), so the observable
states are exactly those between whole item updates plus the final
completion transition.  The model is a small-step relation on those
observable states. -/

inductive JobStatus where
  | queued | running | completed | failed | canceled
deriving DecidableEq, Repr

/-- One prompt's outcome inside run_one: a success result, a result
carrying success false with an error message, or a raised exception. -/
inductive ItemOutcome where
  | ok : ItemOutcome
  | errResult : List Char → ItemOutcome
  | exc : List Char → ItemOutcome
deriving DecidableEq, Repr

structure Job where
  status : JobStatus
  totalItems : Nat
  processedItems : Nat
  successCount : Nat
  errorCount : Nat
  errors : List (List Char)
  results : List (List Char × Bool)
deriving DecidableEq, Repr

/-- The job state right after run_project_prompts sets the status to
running and stores the active prompt count. -/
def initJob (n : Nat) : Job :=
  { status := .running, totalItems := n, processedItems := 0
    successCount := 0, errorCount := 0, errors := [], results := [] }

/-- The critical section of run_one for one outcome: the try branch
appends to results and bumps the matching counter, the except branch
records the stringified exception, and the finally clause bumps
processed_items in every case. -/
def applyOutcome (j : Job) (promptId : List Char) : ItemOutcome → Job
  | .ok =>
      { j with results := j.results ++ [(promptId, true)]
               successCount := j.successCount + 1
               processedItems := j.processedItems + 1 }
  | .errResult msg =>
      { j with results := j.results ++ [(promptId, false)]
               errorCount := j.errorCount + 1
               errors := j.errors ++ [msg]
               processedItems := j.processedItems + 1 }
  | .exc msg =>
      { j with errorCount := j.errorCount + 1
               errors := j.errors ++ [msg]
               processedItems := j.processedItems + 1 }

/-- The completion transition after the gather returns (or immediately
when no active prompt exists). -/
def completeJob (j : Job) : Job := { j with status := .completed }

/-- Observable transitions of a running job. -/
inductive JobStep : Job → Job → Prop where
  | process (j : Job) (promptId : List Char) (o : ItemOutcome)
      (hrun : j.status = .running) (hlt : j.processedItems < j.totalItems) :
      JobStep j (applyOutcome j promptId o)
  | finish (j : Job) (hrun : j.status = .running)
      (hdone : j.processedItems = j.totalItems) :
      JobStep j (completeJob j)

/-- States reachable by run_project_prompts for some prompt set and
some interleaving of outcomes. -/
inductive JobReach : Job → Prop where
  | init (n : Nat) : JobReach (initJob n)
  | step {j j' : Job} : JobReach j → JobStep j j' → JobReach j'

/-- The terminal statuses of the declared lifecycle. -/
def JobStatus.isTerminal : JobStatus → Bool
  | .completed => true
  | .failed => true
  | .canceled => true
  | _ => false

/-! ### ExecutionService.execute_prompt_analysis

The orchestration step the error-handling claim is about: the prompt
and model resolution, the substitution, the concurrent fan-out whose
first failure aborts the whole request, the per-model persistence and
the prompt execution counter.  Provider calls and the database are the
explicit inputs and state of the model. -/

structure AIModel where
  id : List Char
  name : List Char
  isActive : Bool
deriving DecidableEq, Repr

/-- A normalized provider completion as returned by ai_service with
success true. -/
structure AIResult where
  aiResponse : List Char
  aiModelUsed : List Char
  tokensUsed : Nat
  costEstimated : ℚ
deriving DecidableEq, Repr

/-- One provider call outcome: run_model turns a success false result
into a raised ExecutionServiceError carrying the message. -/
abbrev ProviderOutcome := Except (List Char) AIResult

/-- Persistent state touched by the orchestrator: created analysis rows
and the prompt's execution counter. -/
structure ExecState where
  analyses : List (List Char × ResponseAnalysis)
  executionCount : Nat
deriving DecidableEq, Repr

structure ExecResult where
  success : Bool
  error : Option (List Char)
deriving DecidableEq, Repr

/-- asyncio.gather without return_exceptions: the whole fan-out fails
with a raised error as soon as any task raises (the model reports the
first failing model in request order; the claim is insensitive to
which failing task wins the race). -/
def gatherOutcomes : List ProviderOutcome → Except (List Char) (List AIResult)
  | [] => .ok []
  | .error e :: _ => .error e
  | .ok r :: rest => (gatherOutcomes rest).map (r :: ·)

/-- ExecutionService.execute_prompt_analysis: every raised error is
caught by the outer handler and returned as a success false payload
with the state untouched; on success each model's analysis is
persisted and the execution counter incremented once. -/
def executePromptAnalysis (promptActive : Bool) (models : List AIModel)
    (substitution : SubstitutionOutcome) (project : Project)
    (outcomes : List ProviderOutcome) (st : ExecState) : ExecResult × ExecState :=
  if !promptActive then
    ({ success := false, error := some "Erreur lors de l'exécution: prompt inactif".data }, st)
  else if models.isEmpty then
    ({ success := false, error := some "Erreur lors de l'exécution: aucun modèle actif".data }, st)
  else if !substitution.success then
    ({ success := false,
       error := some ("Erreur lors de l'exécution: Erreur de substitution: ".data ++
         (substitution.errorMsg.getD [])) }, st)
  else
    match gatherOutcomes outcomes with
    | .error e =>
        ({ success := false,
           error := some ("Erreur lors de l'exécution: Erreur IA: ".data ++ e) }, st)
    | .ok results =>
        let newRows := results.map (fun r => (r.aiResponse, analyzeResponse r.aiResponse project))
        ({ success := true, error := none },
         { analyses := st.analyses ++ newRows
           executionCount := st.executionCount + 1 })

/-! ### Claim-side specification functions

These follow the words of the specification, to be compared with the
embedded code. -/

/-- The ranking bonus exactly as the specification sentence enumerates
it: 10 for position 1, 7 for positions 2-3, 5 for positions 4-5, 3 for
positions 6-10, nothing otherwise. -/
def claimedRankingBonus : Option Nat → ℚ
  | none => 0
  | some p =>
      if p = 1 then 10
      else if 2 ≤ p ∧ p ≤ 3 then 7
      else if 4 ≤ p ∧ p ≤ 5 then 5
      else if 6 ≤ p ∧ p ≤ 10 then 3
      else 0

/-- The claimed visibility score: the additive formula with the
specification's bonus table, capped at 100. -/
def claimedVisibilityScore (brand website linked : Bool) (p : Option Nat) : ℚ :=
  pyMin 100 ((if brand then 30 else 0) + (if website then 25 else 0) +
    (if linked then 35 else 0) + claimedRankingBonus p)

/-- The relevance tier with the thresholds the claim states: high at
10, medium at 5. -/
def claimedRelevanceTier (s : ℚ) : List Char :=
  if s ≥ 10 then "high".data else if s ≥ 5 then "medium".data else "low".data

/-- Claim-side raw score of a business topic: total keyword occurrence
count over the whole keyword list. -/
def topicRawScore (cfg : TopicConfig) (text : List Char) : Nat :=
  cfg.keywords.foldl (fun a kw => a + countKeyword kw text) 0

/-- The business-topic claim as stated: for some proportionality
constant, every reported topic's score is raw x weight plus the
diversity bonus proportional to the distinct matched keywords, and the
relevance tier uses the claimed thresholds 10 and 5 on that score. -/
def OrigClaimC7 : Prop :=
  ∃ c : ℚ, ∀ text : List Char, ∀ e ∈ classifyBusinessTopics domotiqueTopics text,
    ∃ cfg ∈ domotiqueTopics, e.topic = cfg.topic ∧
      e.score = (e.rawScore : ℚ) * cfg.weight + c * (e.matchesCount : ℚ) ∧
      e.relevance =
        claimedRelevanceTier ((e.rawScore : ℚ) * cfg.weight + c * (e.matchesCount : ℚ))

/-- Does a ranking match qualify: rank at most 10, item mentions the
project, item contains a hyperlink. -/
def qualB (name : List Char) (m : List Char × List Char) : Bool :=
  decide (digitsToNat m.1 ≤ 10) && pyIn name (lower m.2) && reSearch analysisUrlRe m.2

/-- The ranking claim as stated, as a Boolean check at one input: the
position is at most 10 and is produced from the first of the four
patterns that yields any matches: null with zero items when no match
of that pattern mentions the project with a hyperlink, else the first
such match's rank together with that pattern's match count. -/
def origClaimC2Check (text : List Char) (project : Project) : Bool :=
  let r := analyzeRankings text project
  let name := lower project.name
  (match r.position with
   | some p => decide (p ≤ 10)
   | none => true) &&
  (match rankingPatternList.find? (fun pat => !(reFindAll2 pat text).isEmpty) with
   | none => decide (r.position = none) && decide (r.totalItems = 0)
   | some pat =>
       let ms := reFindAll2 pat text
       match ms.find? (fun m => pyIn name (lower m.2) && reSearch analysisUrlRe m.2) with
       | none => decide (r.position = none) && decide (r.totalItems = 0)
       | some m =>
           decide (r.position = some (digitsToNat m.1)) && decide (r.totalItems = ms.length))

/-- Declarative form of the ranking scan: the first pattern whose
match list holds a qualifying item wins, with that item's rank and
that pattern's match count. -/
def rankingsSpec (name text : List Char) : List RE → RankingAnalysis
  | [] => ⟨none, [], 0⟩
  | pat :: rest =>
      match (reFindAll2 pat text).find? (qualB name) with
      | some m =>
          ⟨some (digitsToNat m.1), pyStrip m.2, (reFindAll2 pat text).length⟩
      | none => rankingsSpec name text rest

/-- The job claim's disputed clause: processed equals total only in a
terminal status. -/
def OrigClaimC3 : Prop :=
  ∀ j : Job, JobReach j → j.processedItems = j.totalItems → j.status.isTerminal = true

/-- Claim-side earliest occurrence of a url in the answer text. -/
def firstOccurrenceIndex (url text : List Char) : Option Nat :=
  pyFind url text 0

/-- The source-extraction claim as stated, as a Boolean check at one
input: every returned source sits at its url's earliest occurrence in
the text, and sources appear in first-occurrence order. -/
def origClaimC9Check (text : List Char) (maxItems : Nat) : Bool :=
  let srcs := extract text maxItems
  srcs.all (fun s => decide (firstOccurrenceIndex s.url text = some s.position)) &&
  (srcs.zip srcs.tail).all (fun p =>
    decide ((firstOccurrenceIndex p.1.url text).getD 0 ≤ (firstOccurrenceIndex p.2.url text).getD 0))

/-! ### Concrete sample inputs -/

/-- A project with brand kq and no configured main website. -/
def projKq : Project := { name := "kq".data, mainWebsite := [], competitors := [] }

/-- Scenario A of the specification. -/
def projMyBrand : Project :=
  { name := "MyBrand".data, mainWebsite := "mybrand.com".data, competitors := [] }

/-- An answer whose only numbered item carries rank zero. -/
def ceRankZeroText : List Char := "0. kq http://k.co".data

/-- An answer where pattern 1 matches only with rank 99 while pattern 2
yields a qualifying rank 3. -/
def ceFallThroughText : List Char := "99 #3: kq http://k.co".data

/-- An answer with a bare url occurrence before its markdown link. -/
def ceSourcesText : List Char := "http://a.co http://b.co [t](http://a.co)".data

/-- A text holding five word-bounded occurrences of the pricing keyword
prix and nothing else the domotique dictionaries know. -/
def c7Text : List Char := "prix prix prix prix prix".data

/-- Sample models for the orchestration witness. -/
def witModels : List AIModel :=
  [{ id := "m1".data, name := "m1".data, isActive := true },
   { id := "m2".data, name := "m2".data, isActive := true }]

/-- A successful substitution for the orchestration witness. -/
def witSubst : SubstitutionOutcome :=
  { success := true, errorMsg := none, prompt := "p".data
    variablesUsed := [], missingVariables := [] }

/-- One good completion followed by one failed provider call. -/
def witOutcomes : List ProviderOutcome :=
  [Except.ok { aiResponse := "ok".data, aiModelUsed := "m1".data
               tokensUsed := 10, costEstimated := 0 },
   Except.error "boom".data]

/-- An empty persistence state. -/
def witState : ExecState := { analyses := [], executionCount := 0 }

/-- A brand whose name overlaps itself. -/
def projAA : Project := { name := "aa".data, mainWebsite := [], competitors := [] }

/-- A project whose main website lacks a scheme, so urlparse yields an
empty netloc. -/
def projSchemeless : Project :=
  { name := "n".data, mainWebsite := "k.co".data, competitors := [] }

/-! ### Helper lemmas: scoring -/

lemma rankingBonus_nonneg (p : Option Nat) : 0 ≤ rankingBonus p := by
  cases p with
  | none => simp [rankingBonus]
  | some p => simp only [rankingBonus]; split_ifs <;> norm_num

lemma rankingBonus_le_ten (p : Option Nat) : rankingBonus p ≤ 10 := by
  cases p with
  | none => simp [rankingBonus]
  | some p => simp only [rankingBonus]; split_ifs <;> norm_num

lemma pyMin_le_left (a b : ℚ) : pyMin a b ≤ a := by
  unfold pyMin; split_ifs <;> linarith

lemma pyMin_nonneg {a b : ℚ} (ha : 0 ≤ a) (hb : 0 ≤ b) : 0 ≤ pyMin a b := by
  unfold pyMin; split_ifs <;> linarith

lemma pyMin_mono {a b c : ℚ} (h : b ≤ c) : pyMin a b ≤ pyMin a c := by
  unfold pyMin; split_ifs <;> linarith

lemma indicator_nonneg (b : Bool) (q : ℚ) (hq : 0 ≤ q) :
    0 ≤ if b then q else 0 := by
  split_ifs <;> simp [hq]

lemma calculateVisibilityScore_nonneg (b w l : Bool) (p : Option Nat) :
    0 ≤ calculateVisibilityScore b w l p := by
  unfold calculateVisibilityScore
  have h1 : (0 : ℚ) ≤ if b then 30 else 0 := by split_ifs <;> norm_num
  have h2 : (0 : ℚ) ≤ if w then 25 else 0 := by split_ifs <;> norm_num
  have h3 : (0 : ℚ) ≤ if l then 35 else 0 := by split_ifs <;> norm_num
  have h4 := rankingBonus_nonneg p
  exact pyMin_nonneg (by norm_num) (by linarith)

lemma calculateVisibilityScore_le_hundred (b w l : Bool) (p : Option Nat) :
    calculateVisibilityScore b w l p ≤ 100 := by
  unfold calculateVisibilityScore
  exact pyMin_le_left _ _

lemma rankingBonus_antitone {p q : Nat} (h1 : 1 ≤ q) (h2 : q ≤ p) (h3 : p ≤ 10) :
    rankingBonus (some p) ≤ rankingBonus (some q) := by
  simp only [rankingBonus]
  split_ifs <;> try norm_num
  all_goals omega

lemma rankingBonus_some_ge_three {p : Nat} (h3 : p ≤ 10) :
    3 ≤ rankingBonus (some p) := by
  simp only [rankingBonus]
  split_ifs <;> norm_num

lemma calculateVisibilityScore_mono_brand (w l : Bool) (p : Option Nat) :
    calculateVisibilityScore false w l p ≤ calculateVisibilityScore true w l p := by
  unfold calculateVisibilityScore
  apply pyMin_mono; norm_num

lemma calculateVisibilityScore_mono_website (b l : Bool) (p : Option Nat) :
    calculateVisibilityScore b false l p ≤ calculateVisibilityScore b true l p := by
  unfold calculateVisibilityScore
  apply pyMin_mono; norm_num

lemma calculateVisibilityScore_mono_link (b w : Bool) (p : Option Nat) :
    calculateVisibilityScore b w false p ≤ calculateVisibilityScore b w true p := by
  unfold calculateVisibilityScore
  apply pyMin_mono; norm_num

lemma calculateVisibilityScore_mono_rank (b w l : Bool) {p q : Nat}
    (h1 : 1 ≤ q) (h2 : q ≤ p) (h3 : p ≤ 10) :
    calculateVisibilityScore b w l (some p) ≤ calculateVisibilityScore b w l (some q) := by
  unfold calculateVisibilityScore
  apply pyMin_mono
  have := rankingBonus_antitone h1 h2 h3
  linarith

lemma calculateVisibilityScore_mono_resolve (b w l : Bool) {p : Nat}
    (h3 : p ≤ 10) :
    calculateVisibilityScore b w l none ≤ calculateVisibilityScore b w l (some p) := by
  unfold calculateVisibilityScore
  apply pyMin_mono
  have h4 := rankingBonus_some_ge_three h3
  have h0 : rankingBonus none = 0 := rfl
  rw [h0]
  linarith

/-- The assembled analysis always scores with _calculate_visibility_score
applied to its own four signals. -/
lemma analyzeResponse_score_formula (text : List Char) (project : Project) :
    (analyzeResponse text project).visibilityScore =
      calculateVisibilityScore (analyzeResponse text project).brandMentioned
        (analyzeResponse text project).websiteMentioned
        (analyzeResponse text project).websiteLinked
        (analyzeResponse text project).rankingPosition := by
  by_cases h : pyStrip text = []
  · simp only [analyzeResponse, h, if_pos, emptyAnalysis]
    unfold calculateVisibilityScore rankingBonus pyMin
    norm_num
  · simp only [analyzeResponse, h, if_neg, ite_false]

/-! ### Helper lemmas: job controller -/

lemma applyOutcome_processed (j : Job) (pid : List Char) (o : ItemOutcome) :
    (applyOutcome j pid o).processedItems = j.processedItems + 1 := by
  cases o <;> simp [applyOutcome]

lemma applyOutcome_counts (j : Job) (pid : List Char) (o : ItemOutcome) :
    (applyOutcome j pid o).successCount + (applyOutcome j pid o).errorCount =
      j.successCount + j.errorCount + 1 := by
  cases o <;> simp [applyOutcome] <;> omega

lemma applyOutcome_status (j : Job) (pid : List Char) (o : ItemOutcome) :
    (applyOutcome j pid o).status = j.status := by
  cases o <;> simp [applyOutcome]

lemma applyOutcome_total (j : Job) (pid : List Char) (o : ItemOutcome) :
    (applyOutcome j pid o).totalItems = j.totalItems := by
  cases o <;> simp [applyOutcome]

/-- The three running invariants, by induction over reachability. -/
lemma jobReach_invariants {j : Job} (h : JobReach j) :
    j.successCount + j.errorCount = j.processedItems ∧
    j.processedItems ≤ j.totalItems ∧
    (j.status = .completed → j.processedItems = j.totalItems) := by
  induction h with
  | init n => simp [initJob]
  | step _ hstep ih =>
      cases hstep with
      | process pid o hrun hlt =>
        refine ⟨?_, ?_, ?_⟩
        · rw [applyOutcome_counts, applyOutcome_processed, ih.1]
        · rw [applyOutcome_processed, applyOutcome_total]; omega
        · intro hc
          rw [applyOutcome_status, hrun] at hc
          exact absurd hc (by simp)
      | finish hrun hdone =>
        exact ⟨ih.1, by simp [completeJob]; omega, fun _ => hdone⟩

lemma jobStep_monotone {j j' : Job} (h : JobStep j j') :
    j.processedItems ≤ j'.processedItems ∧ j.errors <+: j'.errors := by
  cases h with
  | process pid o hrun hlt =>
    constructor
    · rw [applyOutcome_processed]; omega
    · cases o <;> simp [applyOutcome] <;> exact ⟨_, rfl⟩
  | finish hrun hdone => simp [completeJob]

/-- From any reachable running state the controller can still reach a
completed state, whatever the remaining outcomes are; in particular a
failed item never prevents completion. -/
lemma jobReach_completes {j : Job} (hr : JobReach j) (hrun : j.status = .running) :
    ∃ j', Relation.ReflTransGen JobStep j j' ∧ j'.status = .completed := by
  obtain ⟨-, hle, -⟩ := jobReach_invariants hr
  obtain ⟨k, hk⟩ : ∃ k, j.totalItems - j.processedItems = k := ⟨_, rfl⟩
  induction k generalizing j with
  | zero =>
      have hdone : j.processedItems = j.totalItems := by omega
      exact ⟨completeJob j, Relation.ReflTransGen.single (.finish j hrun hdone),
        by simp [completeJob]⟩
  | succ k ih =>
      have hlt : j.processedItems < j.totalItems := by omega
      have hstep : JobStep j (applyOutcome j [] (.exc [])) :=
        .process j [] (.exc []) hrun hlt
      have hr' : JobReach (applyOutcome j [] (.exc [])) := .step hr hstep
      obtain ⟨j', hsteps, hc⟩ := ih hr' (by rw [applyOutcome_status]; exact hrun)
        (by obtain ⟨-, h2, -⟩ := jobReach_invariants hr'; exact h2)
        (by rw [applyOutcome_processed, applyOutcome_total]; omega)
      exact ⟨j', Relation.ReflTransGen.head hstep hsteps, hc⟩

/-- The all-failures run: n exceptions then completion. -/
def failState (n k : Nat) : Job :=
  { status := .running, totalItems := n, processedItems := k
    successCount := 0, errorCount := k, errors := List.replicate k []
    results := [] }

lemma jobReach_failState (n : Nat) : ∀ k, k ≤ n → JobReach (failState n k) := by
  intro k
  induction k with
  | zero =>
      intro _
      have : failState n 0 = initJob n := by simp [failState, initJob]
      rw [this]; exact .init n
  | succ k ih =>
      intro hk
      have hstep : JobStep (failState n k) (applyOutcome (failState n k) [] (.exc [])) :=
        .process _ [] (.exc []) rfl (by simp [failState]; omega)
      have : applyOutcome (failState n k) [] (.exc []) = failState n (k + 1) := by
        simp [applyOutcome, failState, List.replicate_succ']
      exact this ▸ .step (ih (by omega)) hstep

/-! ### Claim theorems -/

/-- C1 (amended): the visibility score of every analysed answer is the
additive formula over its own four signals, capped at 100, with the
bonus table of _calculate_visibility_score (which awards 7 rather than
nothing to a resolved position of 0, since every resolved position at
most 3 other than 1 earns 7); the score always lies in [0, 100]; and
the scoring function is monotone when any signal flips from false to
true, when a ranking in 1..10 appears, or when it improves within
1..10. -/
theorem claim_C1_visibility_score (text : List Char) (project : Project) :
    ((analyzeResponse text project).visibilityScore =
      pyMin 100 ((if (analyzeResponse text project).brandMentioned then 30 else 0) +
        (if (analyzeResponse text project).websiteMentioned then 25 else 0) +
        (if (analyzeResponse text project).websiteLinked then 35 else 0) +
        rankingBonus (analyzeResponse text project).rankingPosition)) ∧
    (0 ≤ (analyzeResponse text project).visibilityScore ∧
      (analyzeResponse text project).visibilityScore ≤ 100) ∧
    (∀ w l p, calculateVisibilityScore false w l p ≤ calculateVisibilityScore true w l p) ∧
    (∀ b l p, calculateVisibilityScore b false l p ≤ calculateVisibilityScore b true l p) ∧
    (∀ b w p, calculateVisibilityScore b w false p ≤ calculateVisibilityScore b w true p) ∧
    (∀ b w l p, p ≤ 10 →
      calculateVisibilityScore b w l none ≤ calculateVisibilityScore b w l (some p)) ∧
    (∀ b w l p q, 1 ≤ q → q ≤ p → p ≤ 10 →
      calculateVisibilityScore b w l (some p) ≤ calculateVisibilityScore b w l (some q)) := by
  refine ⟨?_, ⟨?_, ?_⟩, ?_, ?_, ?_, ?_, ?_⟩
  · rw [analyzeResponse_score_formula]; rfl
  · rw [analyzeResponse_score_formula]; exact calculateVisibilityScore_nonneg _ _ _ _
  · rw [analyzeResponse_score_formula]; exact calculateVisibilityScore_le_hundred _ _ _ _
  · exact fun w l p => calculateVisibilityScore_mono_brand w l p
  · exact fun b l p => calculateVisibilityScore_mono_website b l p
  · exact fun b w p => calculateVisibilityScore_mono_link b w p
  · exact fun b w l p hp => calculateVisibilityScore_mono_resolve b w l hp
  · exact fun b w l p q h1 h2 h3 => calculateVisibilityScore_mono_rank b w l h1 h2 h3

/-- C1 witness: the theorem applied at Scenario A with concrete
monotonicity instances. -/
theorem claim_C1_visibility_score_witness :
    ((1 : Nat) ≤ 2 ∧ (2 : Nat) ≤ 3 ∧ (3 : Nat) ≤ 10) ∧
    calculateVisibilityScore true true true (some 3) ≤
      calculateVisibilityScore true true true (some 2) :=
  ⟨⟨by decide, by decide, by decide⟩,
    (claim_C1_visibility_score "1. MyBrand https://mybrand.com".data projMyBrand).2.2.2.2.2.2
      true true true 3 2 (by decide) (by decide) (by decide)⟩

/-- C1 counterexample: on the answer whose list item carries rank 0 the
code scores 37 while the claimed bonus enumeration (10 for position 1,
7 for 2-3, 5 for 4-5, 3 for 6-10, nothing otherwise) yields 30. -/
theorem claim_C1_rank_zero_counterexample :
    (analyzeResponse ceRankZeroText projKq).brandMentioned = true ∧
    (analyzeResponse ceRankZeroText projKq).websiteMentioned = false ∧
    (analyzeResponse ceRankZeroText projKq).websiteLinked = false ∧
    (analyzeResponse ceRankZeroText projKq).rankingPosition = some 0 ∧
    (analyzeResponse ceRankZeroText projKq).visibilityScore = 37 ∧
    claimedVisibilityScore true false false (some 0) = 30 ∧
    (37 : ℚ) ≠ 30 := by
  have hb : (analyzeResponse ceRankZeroText projKq).brandMentioned = true := by decide
  have hw : (analyzeResponse ceRankZeroText projKq).websiteMentioned = false := by decide
  have hl : (analyzeResponse ceRankZeroText projKq).websiteLinked = false := by decide
  have hp : (analyzeResponse ceRankZeroText projKq).rankingPosition = some 0 := by decide
  refine ⟨hb, hw, hl, hp, ?_, ?_, by norm_num⟩
  · rw [analyzeResponse_score_formula, hb, hw, hl, hp]
    unfold calculateVisibilityScore rankingBonus pyMin
    norm_num
  · unfold claimedVisibilityScore claimedRankingBonus pyMin
    norm_num

/-- C3 (amended): at every observable state success plus error counts
equal processed items and processed never exceeds total; processed is
non-decreasing along every transition and error strings are only
appended; a completed job has processed equal to total; one item's
failure only increments the error counter, appends its message, and
leaves the status running, after which the job can still always reach
completed; and a batch whose items all fail still terminates completed
with processed equal to total.  Equality of processed and total does
not imply a terminal state (see the counterexample), which is the one
point where the claim overreaches. -/
theorem claim_C3_job_counters :
    (∀ j : Job, JobReach j →
      j.successCount + j.errorCount = j.processedItems ∧
      j.processedItems ≤ j.totalItems ∧
      (j.status = .completed → j.processedItems = j.totalItems)) ∧
    (∀ j j' : Job, JobStep j j' →
      j.processedItems ≤ j'.processedItems ∧ j.errors <+: j'.errors) ∧
    (∀ (j : Job) (pid msg : List Char),
      (applyOutcome j pid (.exc msg)).status = j.status ∧
      (applyOutcome j pid (.exc msg)).errorCount = j.errorCount + 1 ∧
      (applyOutcome j pid (.exc msg)).successCount = j.successCount ∧
      (applyOutcome j pid (.exc msg)).errors = j.errors ++ [msg] ∧
      (applyOutcome j pid (.errResult msg)).errorCount = j.errorCount + 1 ∧
      (applyOutcome j pid (.errResult msg)).successCount = j.successCount) ∧
    (∀ j : Job, JobReach j → j.status = .running →
      ∃ j', Relation.ReflTransGen JobStep j j' ∧ j'.status = .completed) ∧
    (∀ n : Nat, ∃ j : Job, JobReach j ∧ j.status = .completed ∧
      j.totalItems = n ∧ j.processedItems = n ∧ j.successCount = 0 ∧ j.errorCount = n) := by
  refine ⟨fun j h => jobReach_invariants h, fun j j' h => jobStep_monotone h,
    fun j pid msg => by simp [applyOutcome], fun j h => jobReach_completes h, fun n => ?_⟩
  have hr := jobReach_failState n n le_rfl
  have hstep : JobStep (failState n n) (completeJob (failState n n)) :=
    .finish _ rfl rfl
  exact ⟨completeJob (failState n n), .step hr hstep, rfl, rfl, rfl, rfl, rfl⟩

/-- C3 witness: the batch invariants at a freshly started two-item job,
and the all-failed completion for a two-item batch. -/
theorem claim_C3_job_counters_witness :
    (JobReach (initJob 2) ∧
      (initJob 2).successCount + (initJob 2).errorCount = (initJob 2).processedItems) ∧
    (∃ j : Job, JobReach j ∧ j.status = .completed ∧
      j.totalItems = 2 ∧ j.processedItems = 2 ∧ j.successCount = 0 ∧ j.errorCount = 2) :=
  ⟨⟨.init 2, (claim_C3_job_counters.1 (initJob 2) (.init 2)).1⟩,
    claim_C3_job_counters.2.2.2.2 2⟩

/-- C3 counterexample: right after the only item of a one-item batch is
processed and before the completion transition, the job is observable
with processed equal to total while its status is still running, so
processed = total does not imply a terminal state. -/
theorem claim_C3_counterexample : ¬ OrigClaimC3 := by
  intro h
  have hr : JobReach (applyOutcome (initJob 1) [] .ok) :=
    .step (.init 1) (.process _ [] .ok rfl (by decide))
  have := h _ hr (by decide)
  simp [applyOutcome, initJob, JobStatus.isTerminal] at this

/-- C5: whenever any provider call in the multi-model fan-out fails,
execute_prompt_analysis returns success false with an error message
instead of raising, persists no analysis for any selected model, and
leaves the prompt execution counter untouched. -/
theorem claim_C5_provider_failure_aborts (promptActive : Bool) (models : List AIModel)
    (subst : SubstitutionOutcome) (project : Project)
    (outcomes : List ProviderOutcome) (st : ExecState) (msg : List Char)
    (hmem : Except.error msg ∈ outcomes) :
    (executePromptAnalysis promptActive models subst project outcomes st).1.success = false ∧
    (executePromptAnalysis promptActive models subst project outcomes st).1.error ≠ none ∧
    (executePromptAnalysis promptActive models subst project outcomes st).2 = st := by
  have hgather : ∀ os : List ProviderOutcome, Except.error msg ∈ os →
      ∃ e, gatherOutcomes os = .error e := by
    intro os hm
    induction os with
    | nil => cases hm
    | cons o rest ih =>
        cases o with
        | error e => exact ⟨e, rfl⟩
        | ok r =>
            have hm' : Except.error msg ∈ rest := by
              rcases List.mem_cons.mp hm with h | h
              · cases h
              · exact h
            obtain ⟨e, he⟩ := ih hm'
            exact ⟨e, by simp [gatherOutcomes, he, Except.map]⟩
  unfold executePromptAnalysis
  split_ifs with h1 h2 h3
  · exact ⟨rfl, by simp, rfl⟩
  · exact ⟨rfl, by simp, rfl⟩
  · exact ⟨rfl, by simp, rfl⟩
  · obtain ⟨e, he⟩ := hgather outcomes hmem
    rw [he]
    exact ⟨rfl, by simp, rfl⟩

/-- C5 witness: a two-model execution whose second provider call fails
returns success false and leaves the empty state unchanged. -/
theorem claim_C5_provider_failure_aborts_witness :
    (Except.error "boom".data ∈ witOutcomes) ∧
    ((executePromptAnalysis true witModels witSubst projKq witOutcomes witState).1.success = false ∧
     (executePromptAnalysis true witModels witSubst projKq witOutcomes witState).1.error ≠ none ∧
     (executePromptAnalysis true witModels witSubst projKq witOutcomes witState).2 = witState) :=
  ⟨by simp [witOutcomes],
    claim_C5_provider_failure_aborts true witModels witSubst projKq witOutcomes witState
      "boom".data (by simp [witOutcomes])⟩

/-- C10: with no main website configured the website and link signals
are identically false and empty, so only the brand mention and the
ranking bonus can contribute to the visibility score. -/
theorem claim_C10_no_website (text : List Char) (project : Project)
    (h : project.mainWebsite = []) :
    (analyzeResponse text project).websiteMentioned = false ∧
    (analyzeResponse text project).websiteLinked = false ∧
    (analyzeResponse text project).linksFound = [] ∧
    (analyzeResponse text project).visibilityScore =
      pyMin 100 ((if (analyzeResponse text project).brandMentioned then 30 else 0) +
        rankingBonus (analyzeResponse text project).rankingPosition) := by
  by_cases hblank : pyStrip text = []
  · refine ⟨?_, ?_, ?_, ?_⟩ <;>
      simp [analyzeResponse, hblank, emptyAnalysis, rankingBonus, pyMin] <;>
      norm_num
  · have hw : analyzeWebsiteMentions text project = ⟨false, 0, []⟩ := by
      simp [analyzeWebsiteMentions, h]
    have hl : analyzeLinks text project = ⟨false, [], []⟩ := by
      simp [analyzeLinks, h]
    refine ⟨?_, ?_, ?_, ?_⟩ <;>
      simp only [analyzeResponse, hblank, ite_false, hw, hl] <;>
      try rfl
    unfold calculateVisibilityScore
    norm_num

/-- C10 witness: the theorem at a concrete answer and the kq project,
whose main website is unset. -/
theorem claim_C10_no_website_witness :
    projKq.mainWebsite = [] ∧
    ((analyzeResponse "1. kq http://k.co".data projKq).websiteMentioned = false ∧
     (analyzeResponse "1. kq http://k.co".data projKq).websiteLinked = false ∧
     (analyzeResponse "1. kq http://k.co".data projKq).linksFound = [] ∧
     (analyzeResponse "1. kq http://k.co".data projKq).visibilityScore =
       pyMin 100 ((if (analyzeResponse "1. kq http://k.co".data projKq).brandMentioned
           then 30 else 0) +
         rankingBonus (analyzeResponse "1. kq http://k.co".data projKq).rankingPosition)) :=
  ⟨rfl, claim_C10_no_website "1. kq http://k.co".data projKq rfl⟩

/-- C6 (amended): rendering fails exactly when some well-formed
referenced identifier has no value in the union of override and
project variables (override wins on conflict), reporting exactly the
missing names; on success it returns the exact map of every referenced
name to the value actually used, with override values winning; empty
templates pass through unchanged; malformed braces tokens and
unbalanced braces never make rendering fail, they are flagged only by
the separate validate_template. -/
theorem claim_C6_render_missing_only (template : List Char) (pv cv : VarMap) :
    ((substituteVariables template pv cv).success = true ↔
      (extractVariables template).filter
        (fun v => (lookupVar pv cv v).isNone) = []) ∧
    ((substituteVariables template pv cv).success = false →
      (substituteVariables template pv cv).missingVariables =
        (extractVariables template).filter (fun v => (lookupVar pv cv v).isNone) ∧
      (substituteVariables template pv cv).missingVariables ≠ []) ∧
    ((substituteVariables template pv cv).success = true →
      (substituteVariables template pv cv).variablesUsed =
        (extractVariables template).map
          (fun v => (v, (lookupVar pv cv v).getD []))) ∧
    (∀ v val, (substituteVariables template pv cv).success = true →
      (v, val) ∈ (substituteVariables template pv cv).variablesUsed →
      lookupVar pv cv v = some val) ∧
    (∀ v val, v ∈ extractVariables template → cv.lookup v = some val →
      (substituteVariables template pv cv).success = true →
      (v, val) ∈ (substituteVariables template pv cv).variablesUsed) ∧
    (extractVariables template = [] →
      (substituteVariables template pv cv).prompt = template) ∧
    (∀ t : List Char, pyStrip t ≠ [] → malformedScan (t.length + 1) t ≠ [] →
      (validateTemplate t).valid = false) ∧
    (∀ t : List Char, pyStrip t ≠ [] → t.count '{' ≠ t.count '}' →
      (validateTemplate t).valid = false) := by
  have hmain : ∀ v val, (v, val) ∈ (extractVariables template).map
      (fun v => (v, (lookupVar pv cv v).getD [])) →
      v ∈ extractVariables template ∧ val = (lookupVar pv cv v).getD [] := by
    intro v val hv
    obtain ⟨v', hv', heq⟩ := List.mem_map.mp hv
    cases heq
    exact ⟨hv', rfl⟩
  have hval1 : ∀ t : List Char, pyStrip t ≠ [] → malformedScan (t.length + 1) t ≠ [] →
      (validateTemplate t).valid = false := by
    intro t h1 h2
    simp only [validateTemplate]
    split_ifs <;> first | rfl | tauto
  have hval2 : ∀ t : List Char, pyStrip t ≠ [] → t.count '{' ≠ t.count '}' →
      (validateTemplate t).valid = false := by
    intro t h1 h2
    simp only [validateTemplate]
    split_ifs <;> first | rfl | tauto
  by_cases h : (extractVariables template).filter (fun v => (lookupVar pv cv v).isNone) = []
  · have hred : substituteVariables template pv cv =
        { success := true, errorMsg := none
          prompt := (extractVariables template).foldl
            (fun acc v => pyReplace ('{' :: v ++ ['}'])
              ((lookupVar pv cv v).getD []) (acc.length + 1) acc) template
          variablesUsed := (extractVariables template).map
            (fun v => (v, (lookupVar pv cv v).getD []))
          missingVariables := [] } := by
      simp only [substituteVariables, h]
      simp
    have hsome : ∀ v, v ∈ extractVariables template → (lookupVar pv cv v).isSome := by
      intro v hv
      by_contra hns
      have hnone : (lookupVar pv cv v).isNone := by
        simp [Option.isNone_iff_eq_none, Option.not_isSome_iff_eq_none.mp hns]
      have : v ∈ (extractVariables template).filter
          (fun v => (lookupVar pv cv v).isNone) := List.mem_filter.mpr ⟨hv, hnone⟩
      rw [h] at this
      cases this
    refine ⟨?_, ?_, ?_, ?_, ?_, ?_, hval1, hval2⟩
    · rw [hred]; simp [h]
    · rw [hred]; intro hfail; cases hfail
    · intro _; rw [hred]
    · intro v val _ hv
      rw [hred] at hv
      obtain ⟨hvmem, hval⟩ := hmain v val hv
      obtain ⟨w, hw⟩ := Option.isSome_iff_exists.mp (hsome v hvmem)
      rw [hw] at hval ⊢
      simp [hval]
    · intro v val hvmem hcv _
      rw [hred]
      have hlk : lookupVar pv cv v = some val := by
        simp only [lookupVar, hcv]
      exact List.mem_map.mpr ⟨v, hvmem, by rw [hlk]; rfl⟩
    · intro hreq
      rw [hred]
      simp [hreq]
  · have hred : substituteVariables template pv cv =
        { success := false
          errorMsg := some ("Variables manquantes: ".data ++ joinCommaSpace
            ((extractVariables template).filter (fun v => (lookupVar pv cv v).isNone)))
          prompt := template, variablesUsed := []
          missingVariables := (extractVariables template).filter
            (fun v => (lookupVar pv cv v).isNone) } := by
      simp only [substituteVariables]
      rw [if_pos h]
    refine ⟨?_, ?_, ?_, ?_, ?_, ?_, hval1, hval2⟩
    · rw [hred]; simp [h]
    · intro _; rw [hred]; exact ⟨rfl, h⟩
    · rw [hred]; intro hsucc; cases hsucc
    · intro v val hsucc
      rw [hred] at hsucc
      cases hsucc
    · intro v val _ _ hsucc
      rw [hred] at hsucc
      cases hsucc
    · intro hreq
      exfalso
      apply h
      rw [hreq]
      rfl

/-- C6 witness: Scenario C, the template Hello {name} with no variable
values fails reporting exactly the name, and the theorem's missing-set
description applies at it. -/
theorem claim_C6_render_missing_only_witness :
    ((substituteVariables "Hello {name}".data [] []).success = false) ∧
    ((substituteVariables "Hello {name}".data [] []).missingVariables =
      (extractVariables "Hello {name}".data).filter
        (fun v => (lookupVar [] [] v).isNone) ∧
     (substituteVariables "Hello {name}".data [] []).missingVariables ≠ []) :=
  ⟨by decide, (claim_C6_render_missing_only "Hello {name}".data [] []).2.1 (by decide)⟩

/-- C6 counterexample: the template consisting of the malformed token
braces-1-braces renders successfully with project and override maps
empty, although the claim requires a malformed-variable failure; the
separate validator does flag it.  A template with unbalanced braces
also renders successfully. -/
theorem claim_C6_malformed_renders_counterexample :
    malformedScan ("{1}".length + 1) "{1}".data ≠ [] ∧
    (validateTemplate "{1}".data).valid = false ∧
    (substituteVariables "{1}".data [] []).success = true ∧
    (substituteVariables "{1}".data [] []).prompt = "{1}".data ∧
    ("\x7ba\x7d\x7b".data.count '{' ≠ "\x7ba\x7d\x7b".data.count '}') ∧
    (substituteVariables "\x7ba\x7d\x7b".data [("a".data, "X".data)] []).success = true := by
  refine ⟨by decide, by decide, by decide, by decide, by decide, by decide⟩

/-! ### Helper lemmas: the stable sorts -/

lemma insAsc_perm (key : α → Nat) (e : α) :
    ∀ l : List α, (insAsc key e l).Perm (e :: l)
  | [] => .refl _
  | x :: xs => by
      unfold insAsc
      split_ifs
      · exact .refl _
      · exact .trans (List.Perm.cons x (insAsc_perm key e xs)) (List.Perm.swap e x xs)

lemma pySortAsc_perm (key : α → Nat) (l : List α) : (pySortAsc key l).Perm l := by
  suffices h : ∀ (l : List α) (acc : List α),
      (l.foldl (fun acc e => insAsc key e acc) acc).Perm (acc ++ l) by
    simpa using h l []
  intro l
  induction l with
  | nil => intro acc; simp
  | cons x xs ih =>
      intro acc
      refine .trans (ih (insAsc key x acc)) ?_
      refine .trans (List.Perm.append_right xs ((insAsc_perm key x acc))) ?_
      exact List.perm_middle.symm

lemma insAsc_sorted (key : α → Nat) (e : α) :
    ∀ l : List α, l.Pairwise (fun a b => key a ≤ key b) →
      (insAsc key e l).Pairwise (fun a b => key a ≤ key b)
  | [], _ => by simp [insAsc]
  | x :: xs, h => by
      unfold insAsc
      rcases List.pairwise_cons.mp h with ⟨hx, hxs⟩
      split_ifs with hlt
      · refine List.pairwise_cons.mpr ⟨?_, h⟩
        intro b hb
        rcases List.mem_cons.mp hb with rfl | hb
        · exact le_of_lt hlt
        · exact le_trans (le_of_lt hlt) (hx b hb)
      · refine List.pairwise_cons.mpr ⟨?_, insAsc_sorted key e xs hxs⟩
        intro b hb
        rcases List.mem_cons.mp ((insAsc_perm key e xs).mem_iff.mp hb) with rfl | hb
        · omega
        · exact hx b hb

lemma pySortAsc_sorted (key : α → Nat) (l : List α) :
    (pySortAsc key l).Pairwise (fun a b => key a ≤ key b) := by
  suffices h : ∀ (l acc : List α), acc.Pairwise (fun a b => key a ≤ key b) →
      (l.foldl (fun acc e => insAsc key e acc) acc).Pairwise (fun a b => key a ≤ key b) by
    exact h l [] (by simp)
  intro l
  induction l with
  | nil => intro acc h; simpa using h
  | cons x xs ih => intro acc h; exact ih _ (insAsc_sorted key x acc h)

lemma insDesc_perm (key : α → ℚ) (e : α) :
    ∀ l : List α, (insDesc key e l).Perm (e :: l)
  | [] => .refl _
  | x :: xs => by
      unfold insDesc
      split_ifs
      · exact .refl _
      · exact .trans (List.Perm.cons x (insDesc_perm key e xs)) (List.Perm.swap e x xs)

lemma pySortDesc_perm (key : α → ℚ) (l : List α) : (pySortDesc key l).Perm l := by
  suffices h : ∀ (l : List α) (acc : List α),
      (l.foldl (fun acc e => insDesc key e acc) acc).Perm (acc ++ l) by
    simpa using h l []
  intro l
  induction l with
  | nil => intro acc; simp
  | cons x xs ih =>
      intro acc
      refine .trans (ih (insDesc key x acc)) ?_
      refine .trans (List.Perm.append_right xs ((insDesc_perm key x acc))) ?_
      exact List.perm_middle.symm

lemma insDesc_sorted (key : α → ℚ) (e : α) :
    ∀ l : List α, l.Pairwise (fun a b => key b ≤ key a) →
      (insDesc key e l).Pairwise (fun a b => key b ≤ key a)
  | [], _ => by simp [insDesc]
  | x :: xs, h => by
      unfold insDesc
      rcases List.pairwise_cons.mp h with ⟨hx, hxs⟩
      split_ifs with hlt
      · refine List.pairwise_cons.mpr ⟨?_, h⟩
        intro b hb
        rcases List.mem_cons.mp hb with rfl | hb
        · exact le_of_lt hlt
        · exact le_trans (hx b hb) (le_of_lt hlt)
      · refine List.pairwise_cons.mpr ⟨?_, insDesc_sorted key e xs hxs⟩
        intro b hb
        rcases List.mem_cons.mp ((insDesc_perm key e xs).mem_iff.mp hb) with rfl | hb
        · linarith [not_lt.mp hlt]
        · exact hx b hb

lemma pySortDesc_sorted (key : α → ℚ) (l : List α) :
    (pySortDesc key l).Pairwise (fun a b => key b ≤ key a) := by
  suffices h : ∀ (l acc : List α), acc.Pairwise (fun a b => key b ≤ key a) →
      (l.foldl (fun acc e => insDesc key e acc) acc).Pairwise (fun a b => key b ≤ key a) by
    exact h l [] (by simp)
  intro l
  induction l with
  | nil => intro acc h; simpa using h
  | cons x xs ih => intro acc h; exact ih _ (insDesc_sorted key x acc h)

/-! ### Helper lemmas: the extractor url map -/

/-- Well-formedness of the insertion-ordered url map: every stored
source carries its key as url and keys never repeat. -/
def MapWF (m : List (List Char × Source)) : Prop :=
  (∀ p ∈ m, p.2.url = p.1) ∧ (m.map Prod.fst).Nodup

lemma lookup_none_not_mem_fst {m : List (List Char × Source)} {k : List Char}
    (h : m.lookup k = none) : ∀ p ∈ m, p.1 ≠ k := by
  induction m with
  | nil => intro p hp; cases hp
  | cons q rest ih =>
      obtain ⟨k1, v1⟩ := q
      intro p hp
      by_cases hk : k1 = k
      · subst hk
        unfold List.lookup at h
        rw [beq_self_eq_true] at h
        cases h
      · have hbeq : (k == k1) = false := beq_false_of_ne (Ne.symm hk)
        have h' : rest.lookup k = none := by
          unfold List.lookup at h
          rw [hbeq] at h
          exact h
        rcases List.mem_cons.mp hp with rfl | hp
        · exact hk
        · exact ih h' p hp

lemma addIfAbsent_wf {m : List (List Char × Source)} {url : List Char} {s : Source}
    (hm : MapWF m) (hs : s.url = url) : MapWF (addIfAbsent m url s) := by
  unfold addIfAbsent
  split_ifs with h
  · exact hm
  · have hnone : m.lookup url = none := by
      cases hl : m.lookup url with
      | none => rfl
      | some v => rw [hl] at h; simp at h
    constructor
    · intro p hp
      rcases List.mem_append.mp hp with hp | hp
      · exact hm.1 p hp
      · rcases List.mem_singleton.mp hp with rfl
        exact hs
    · rw [List.map_append]
      refine List.nodup_append.mpr ⟨hm.2, by simp, ?_⟩
      intro a ha hb
      simp only [List.map_cons, List.map_nil, List.mem_singleton] at hb
      subst hb
      obtain ⟨p, hp, hpa⟩ := List.mem_map.mp ha
      exact lookup_none_not_mem_fst hnone p hp hpa

lemma foldl_preserve {β γ : Type} (P : γ → Prop) (f : γ → β → γ)
    (hstep : ∀ b a, P b → P (f b a)) :
    ∀ (l : List β) (b : γ), P b → P (l.foldl f b) := by
  intro l
  induction l with
  | nil => intro b h; exact h
  | cons x xs ih => intro b h; exact ih _ (hstep b x h)

lemma extractStep1_wf (text : List Char) {m : List (List Char × Source)}
    (hm : MapWF m) : MapWF (extractStep1 text m) := by
  unfold extractStep1
  refine foldl_preserve MapWF _ ?_ _ m hm
  intro b a hb
  exact addIfAbsent_wf hb rfl

lemma extractStep2_wf (text : List Char) {m : List (List Char × Source)}
    (hm : MapWF m) : MapWF (extractStep2 text m) := by
  unfold extractStep2
  refine foldl_preserve MapWF _ ?_ _ m hm
  intro b a hb
  exact addIfAbsent_wf hb rfl

lemma extractStep3_wf (text : List Char) {m : List (List Char × Source)}
    (hm : MapWF m) : MapWF (extractStep3 text m) := by
  unfold extractStep3
  refine foldl_preserve MapWF _ ?_ _ m hm
  intro b label hb
  dsimp only
  split
  · exact hb
  · refine foldl_preserve MapWF _ ?_ _ b hb
    intro b2 a hb2
    exact addIfAbsent_wf hb2 rfl

lemma extractStep4_wf (text : List Char) {m : List (List Char × Source)}
    (hm : MapWF m) : MapWF (extractStep4 text m) := by
  unfold extractStep4
  refine foldl_preserve MapWF _ ?_ _ m hm
  intro b a hb
  dsimp only
  split
  · exact hb
  · exact addIfAbsent_wf hb rfl

/-! ### More claim theorems -/

/-- C9 (amended): extract returns at most maxItems sources, at most
one per url, ordered by each source's recorded position ascending; the
recorded position is where the recording strategy matched (markdown
links run first and record the link's start), which is not always the
url's earliest occurrence in the text, and first-seen data wins on
duplicate urls; re-running on identical text yields the identical
list. -/
theorem claim_C9_extract_inventory (text : List Char) (maxItems : Nat) :
    (extract text maxItems).length ≤ maxItems ∧
    (extract text maxItems).Pairwise (fun a b => a.position ≤ b.position) ∧
    ((extract text maxItems).map (·.url)).Nodup ∧
    extract text maxItems = extract text maxItems := by
  by_cases hblank : pyStrip text = []
  · simp [extract, hblank]
  · have hwf : MapWF (extractStep4 text
        (extractStep3 text (extractStep2 text (extractStep1 text [])))) :=
      extractStep4_wf text (extractStep3_wf text (extractStep2_wf text
        (extractStep1_wf text ⟨by simp, by simp⟩)))
    set m := extractStep4 text
        (extractStep3 text (extractStep2 text (extractStep1 text []))) with hm
    have hext : extract text maxItems =
        (pySortAsc (·.position) (m.map (·.2))).take maxItems := by
      simp only [extract, hblank, ite_false, if_neg]
    refine ⟨?_, ?_, ?_, rfl⟩
    · rw [hext]; exact List.length_take_le _ _
    · rw [hext]
      exact ((pySortAsc_sorted (·.position) (m.map (·.2)))).sublist
        (List.take_sublist _ _)
    · rw [hext]
      have hperm : ((pySortAsc (·.position) (m.map (·.2))).map (·.url)).Perm
          ((m.map (·.2)).map (·.url)) :=
        (pySortAsc_perm (·.position) (m.map (·.2))).map _
      have hurls : (m.map (·.2)).map (·.url) = m.map Prod.fst := by
        rw [List.map_map]
        exact List.map_congr_left (fun p hp => hwf.1 p hp)
      have hnodup : ((pySortAsc (·.position) (m.map (·.2))).map (·.url)).Nodup := by
        rw [hperm.nodup_iff, hurls]
        exact hwf.2
      rw [List.map_take]
      exact hnodup.sublist (List.take_sublist _ _)

/-- C9 counterexample: in the sample answer the url a appears bare at
index 0 before its markdown link at index 24; the markdown strategy
records it first at position 24, so its stored position is not its
earliest occurrence and the output order b-then-a violates the
first-occurrence order a-then-b. -/
theorem claim_C9_position_counterexample :
    origClaimC9Check ceSourcesText 20 = false ∧
    ((extract ceSourcesText 20).map (fun s => (s.url, s.position))) =
      [("http://b.co".data, 12), ("http://a.co".data, 24)] ∧
    firstOccurrenceIndex "http://a.co".data ceSourcesText = some 0 ∧
    firstOccurrenceIndex "http://b.co".data ceSourcesText = some 12 := by
  refine ⟨by decide, by decide, by decide, by decide⟩

/-! ### Helper lemmas: the while-find mention loop counts every
occurrence position -/

lemma find?_eq_head_filter {α} (p : α → Bool) (l : List α) :
    l.find? p = (l.filter p).head? := by
  induction l with
  | nil => rfl
  | cons x xs ih =>
      cases h : p x with
      | true =>
          rw [List.find?_cons_of_pos _ h, List.filter_cons_of_pos h]
          rfl
      | false =>
          rw [List.find?_cons_of_neg _ (by simp [h]),
            List.filter_cons_of_neg (by simp [h])]
          exact ih

/-- Splitting a filter over a strictly sorted list at the least
satisfying element. -/
lemma filter_split {P Q : Nat → Bool} {p : Nat} :
    ∀ {l : List Nat}, l.Pairwise (· < ·) → p ∈ l →
      (∀ q ∈ l, P q = (decide (q = p) || Q q)) → Q p = false →
      (∀ q ∈ l, Q q = true → p < q) →
      l.filter P = p :: l.filter Q := by
  intro l
  induction l with
  | nil => intro _ hp; cases hp
  | cons x t ih =>
      intro hsort hp hPQ hQp hQgt
      rcases List.pairwise_cons.mp hsort with ⟨hx, ht⟩
      by_cases hxp : x = p
      · subst hxp
        have hPx : P x = true := by
          rw [hPQ x (List.mem_cons_self x t)]
          simp
        rw [List.filter_cons_of_pos hPx]
        have hQx : Q x = false := hQp
        rw [List.filter_cons_of_neg (by simp [hQx])]
        congr 1
        apply List.filter_congr
        intro q hq
        have hqx : x < q := hx q hq
        rw [hPQ q (List.mem_cons_of_mem x hq)]
        have : q ≠ x := by omega
        simp [this]
      · have hpt : p ∈ t := by
          rcases List.mem_cons.mp hp with h | h
          · exact absurd h.symm hxp
          · exact h
        have hxltp : x < p := hx p hpt
        have hQx : Q x = false := by
          by_contra hq
          have := hQgt x (List.mem_cons_self x t) (by simpa using hq)
          omega
        have hPx : P x = false := by
          rw [hPQ x (List.mem_cons_self x t)]
          simp [hQx, fun h : x = p => hxp h]
        rw [List.filter_cons_of_neg (by simp [hPx]),
          List.filter_cons_of_neg (by simp [hQx])]
        exact ih ht hpt (fun q hq => hPQ q (List.mem_cons_of_mem x hq)) hQp
          (fun q hq => hQgt q (List.mem_cons_of_mem x hq))

lemma mentionLoop_eq (pat text : List Char) :
    ∀ (fuel start : Nat), text.length + 1 ≤ fuel + start →
      mentionLoop pat text fuel start =
        (List.range (text.length + 1)).filter
          (fun q => decide (start ≤ q) && occursAt pat text q) := by
  intro fuel
  induction fuel with
  | zero =>
      intro start hle
      have h0 : mentionLoop pat text 0 start = [] := rfl
      rw [h0]
      symm
      rw [List.filter_eq_nil_iff]
      intro q hq
      have : q < text.length + 1 := List.mem_range.mp hq
      simp only [Bool.and_eq_true, decide_eq_true_eq]
      intro ⟨h1, _⟩
      omega
  | succ fuel ih =>
      intro start hle
      unfold mentionLoop
      have hfind : pyFind pat text start =
          ((List.range (text.length + 1)).filter
            (fun q => decide (start ≤ q) && occursAt pat text q)).head? :=
        find?_eq_head_filter _ _
      cases hp : pyFind pat text start with
      | none =>
          rw [hp] at hfind
          symm
          exact List.head?_eq_none_iff.mp hfind.symm
      | some p =>
          simp only [hp]
          rw [hp] at hfind
          cases hl : (List.range (text.length + 1)).filter
              (fun q => decide (start ≤ q) && occursAt pat text q) with
          | nil => rw [hl] at hfind; cases hfind
          | cons y t =>
              rw [hl] at hfind
              have hyp : y = p := by simpa using hfind.symm
              subst hyp
              have hmem : y ∈ (List.range (text.length + 1)).filter
                  (fun q => decide (start ≤ q) && occursAt pat text q) := by
                rw [hl]; exact List.mem_cons_self y t
              have hrange : y ∈ List.range (text.length + 1) :=
                (List.mem_filter.mp hmem).1
              have hpred := (List.mem_filter.mp hmem).2
              simp only [Bool.and_eq_true, decide_eq_true_eq] at hpred
              obtain ⟨hstart, hocc⟩ := hpred
              have hylt : y < text.length + 1 := List.mem_range.mp hrange
              have hsortedF : ((List.range (text.length + 1)).filter
                  (fun q => decide (start ≤ q) && occursAt pat text q)).Pairwise
                  (· < ·) :=
                (List.pairwise_lt_range _).filter _
              have hgt : ∀ b ∈ t, y < b := by
                rw [hl] at hsortedF
                exact (List.pairwise_cons.mp hsortedF).1
              rw [ih (y + 1) (by omega), ← hl]
              symm
              apply filter_split (List.pairwise_lt_range _) hrange
              · intro q hq
                by_cases hqp : q = y
                · subst hqp
                  simp [hstart, hocc]
                · have hd : decide (q = y) = false := decide_eq_false hqp
                  simp only [hd, Bool.false_or]
                  cases hocq : occursAt pat text q with
                  | false => simp
                  | true =>
                      simp only [Bool.and_true]
                      have hiff : start ≤ q ↔ y + 1 ≤ q := by
                        constructor
                        · intro hs
                          have hqf : q ∈ (List.range (text.length + 1)).filter
                              (fun r => decide (start ≤ r) && occursAt pat text r) :=
                            List.mem_filter.mpr ⟨hq, by simp [hs, hocq]⟩
                          rw [hl] at hqf
                          rcases List.mem_cons.mp hqf with h | h
                          · exact absurd h hqp
                          · have := hgt q h; omega
                        · intro hs; omega
                      simp only [decide_eq_decide]
                      exact hiff
              · show (decide (y + 1 ≤ y) && occursAt pat text y) = false
                simp
              · intro q hq hqd
                simp only [Bool.and_eq_true, decide_eq_true_eq] at hqd
                omega

/-- The while-find loop visits exactly the occurrence positions,
overlapping ones included. -/
lemma mentionPositions_eq (pat text : List Char) :
    mentionPositions pat text = allOccurrences pat text := by
  unfold mentionPositions allOccurrences
  rw [mentionLoop_eq pat text (text.length + 1) 0 (by omega)]
  apply List.filter_congr
  intro q hq
  simp

/-- C4 (amended): for every non-blank answer, the reported brand count
equals the number of all start positions (overlapping included) at
which the lowercased project name occurs in the lowercased text; the
website count is the same position count for the netloc-derived domain
of the configured website (zero when no website is set); and the
per-competitor details report exactly the competitors with a positive
position count together with that count. -/
theorem claim_C4_mention_counts (text : List Char) (project : Project)
    (h : pyStrip text ≠ []) :
    ((analyzeResponse text project).brandMentionsCount =
      (allOccurrences (lower project.name) (lower text)).length) ∧
    (project.mainWebsite = [] →
      (analyzeResponse text project).websiteMentionsCount = 0) ∧
    (project.mainWebsite ≠ [] →
      (analyzeResponse text project).websiteMentionsCount =
        (allOccurrences (bareDomain project.mainWebsite) (lower text)).length) ∧
    (∀ d ∈ (analyzeResponse text project).competitorsDetails,
      ∃ comp ∈ project.competitors, d.name = comp.name ∧
        d.mentionsCount = (allOccurrences (lower comp.name) (lower text)).length ∧
        0 < d.mentionsCount) ∧
    (∀ comp ∈ project.competitors,
      0 < (allOccurrences (lower comp.name) (lower text)).length →
      ∃ d ∈ (analyzeResponse text project).competitorsDetails, d.name = comp.name ∧
        d.mentionsCount = (allOccurrences (lower comp.name) (lower text)).length) := by
  have hdetails : (analyzeResponse text project).competitorsDetails =
      (analyzeCompetitors text project.competitors).details := by
    simp only [analyzeResponse, if_neg h]
  refine ⟨?_, ?_, ?_, ?_, ?_⟩
  · simp only [analyzeResponse, if_neg h, analyzeBrandMentions]
    rw [mentionPositions_eq]
  · intro hweb
    simp only [analyzeResponse, if_neg h, analyzeWebsiteMentions, hweb]
    rfl
  · intro hweb
    simp only [analyzeResponse, if_neg h, analyzeWebsiteMentions, if_neg hweb]
    rw [mentionPositions_eq]
  · intro d hd
    rw [hdetails] at hd
    simp only [analyzeCompetitors] at hd
    obtain ⟨comp, hcomp, hfd⟩ := List.mem_filterMap.mp hd
    refine ⟨comp, hcomp, ?_⟩
    split_ifs at hfd with hpos
    cases hfd
    rw [mentionPositions_eq] at hpos ⊢
    exact ⟨rfl, rfl, hpos⟩
  · intro comp hcomp hpos
    rw [hdetails]
    simp only [analyzeCompetitors]
    rw [← mentionPositions_eq] at hpos
    refine ⟨{ name := comp.name
              mentionsCount := (mentionPositions (lower comp.name) (lower text)).length
              context := (mentionPositions (lower comp.name) (lower text)).map
                (fun pos => contextWindow text pos (lower comp.name).length)
              website := comp.website }, ?_, rfl, ?_⟩
    · exact List.mem_filterMap.mpr ⟨comp, hcomp, by rw [if_pos hpos]⟩
    · rw [mentionPositions_eq]

/-- C4 witness: the theorem at a concrete answer naming the brand kq
twice. -/
theorem claim_C4_mention_counts_witness :
    (pyStrip "kq and kq".data ≠ []) ∧
    ((analyzeResponse "kq and kq".data projKq).brandMentionsCount =
      (allOccurrences (lower projKq.name) (lower "kq and kq".data)).length) :=
  ⟨by decide, (claim_C4_mention_counts "kq and kq".data projKq (by decide)).1⟩

/-- C4 counterexample: the brand aa occurs non-overlappingly once in
AAA yet the code reports two mentions, because the find loop restarts
one character after each hit; and with the schemeless website k.co the
code searches for the empty netloc and reports length-plus-one website
mentions where the bare domain k.co never occurs. -/
theorem claim_C4_overlap_counterexample :
    (analyzeResponse "AAA".data projAA).brandMentionsCount = 2 ∧
    (literalOccurrences (lower "aa".data) (lower "AAA".data)).length = 1 ∧
    (analyzeResponse "xy".data projSchemeless).websiteMentionsCount = 3 ∧
    (literalOccurrences "k.co".data (lower "xy".data)).length = 0 := by
  refine ⟨by decide, by decide, by decide, by decide⟩

/-! ### Helper lemmas: the ranking scan -/

lemma findQualifying_eq_find? (name : List Char) (ms : List (List Char × List Char)) :
    findQualifying name ms =
      (ms.find? (qualB name)).map (fun m => (digitsToNat m.1, m.2)) := by
  induction ms with
  | nil => rfl
  | cons m rest ih =>
      obtain ⟨rankStr, item⟩ := m
      simp only [findQualifying]
      by_cases h1 : digitsToNat rankStr > 10
      · have hq : qualB name (rankStr, item) = false := by
          unfold qualB
          have : ¬ digitsToNat rankStr ≤ 10 := by omega
          simp [this]
        rw [if_pos h1, List.find?_cons_of_neg _ (by simp [hq]), ih]
      · rw [if_neg h1]
        by_cases h2 : pyIn name (lower item) = true
        · by_cases h3 : reSearch analysisUrlRe item = true
          · have hq : qualB name (rankStr, item) = true := by
              unfold qualB
              simp only [Bool.and_eq_true, decide_eq_true_eq]
              exact ⟨⟨by omega, h2⟩, h3⟩
            rw [if_pos h2, if_pos h3, List.find?_cons_of_pos _ hq]
            rfl
          · have hq : qualB name (rankStr, item) = false := by
              unfold qualB
              simp [Bool.eq_false_iff.mpr h3]
            rw [if_pos h2, if_neg h3, List.find?_cons_of_neg _ (by simp [hq]), ih]
        · have hq : qualB name (rankStr, item) = false := by
            unfold qualB
            simp [Bool.eq_false_iff.mpr h2]
          rw [if_neg h2, List.find?_cons_of_neg _ (by simp [hq]), ih]

lemma rankingsLoop_eq_spec (name text : List Char) (pats : List RE) :
    rankingsLoop name text pats = rankingsSpec name text pats := by
  induction pats with
  | nil => rfl
  | cons pat rest ih =>
      simp only [rankingsLoop, rankingsSpec]
      by_cases hempty : (reFindAll2 pat text).isEmpty = true
      · have hnil : reFindAll2 pat text = [] := List.isEmpty_iff.mp hempty
        rw [if_pos hempty, hnil]
        simpa using ih
      · rw [if_neg hempty, findQualifying_eq_find? name (reFindAll2 pat text)]
        cases hf : (reFindAll2 pat text).find? (qualB name) with
        | some m => rfl
        | none => simpa using ih

lemma rankingsSpec_position_le (name text : List Char) (pats : List RE) :
    ∀ p, (rankingsSpec name text pats).position = some p → p ≤ 10 := by
  induction pats with
  | nil => intro p hp; cases hp
  | cons pat rest ih =>
      intro p hp
      simp only [rankingsSpec] at hp
      cases hf : (reFindAll2 pat text).find? (qualB name) with
      | some m =>
          rw [hf] at hp
          cases hp
          have hq := List.find?_some hf
          unfold qualB at hq
          simp only [Bool.and_eq_true, decide_eq_true_eq] at hq
          exact hq.1.1
      | none =>
          rw [hf] at hp
          exact ih p hp

lemma rankingsSpec_none (name text : List Char) (pats : List RE) :
    (rankingsSpec name text pats).position = none →
      (rankingsSpec name text pats).totalItems = 0 ∧
      ∀ pat ∈ pats, ∀ m ∈ reFindAll2 pat text, qualB name m = false := by
  induction pats with
  | nil => intro _; exact ⟨rfl, fun pat hp => absurd hp (by simp)⟩
  | cons pat rest ih =>
      intro hnone
      simp only [rankingsSpec] at hnone ⊢
      cases hf : (reFindAll2 pat text).find? (qualB name) with
      | some m => rw [hf] at hnone; cases hnone
      | none =>
          rw [hf] at hnone
          obtain ⟨h1, h2⟩ := ih hnone
          refine ⟨h1, ?_⟩
          intro pat2 hpat2 m hm
          rcases List.mem_cons.mp hpat2 with rfl | hpat2
          · have := List.find?_eq_none.mp hf m hm
            exact Bool.eq_false_iff.mpr this
          · exact h2 pat2 hpat2 m hm

lemma rankingsSpec_some (name text : List Char) (pats : List RE) :
    ∀ p, (rankingsSpec name text pats).position = some p →
      ∃ (i : Nat) (pat : RE), pats[i]? = some pat ∧
        (∀ j, j < i → ∀ patj, pats[j]? = some patj →
          (reFindAll2 patj text).find? (qualB name) = none) ∧
        ∃ m, (reFindAll2 pat text).find? (qualB name) = some m ∧
          p = digitsToNat m.1 ∧
          (rankingsSpec name text pats).context = pyStrip m.2 ∧
          (rankingsSpec name text pats).totalItems = (reFindAll2 pat text).length := by
  induction pats with
  | nil => intro p hp; cases hp
  | cons pat rest ih =>
      intro p hp
      simp only [rankingsSpec] at hp ⊢
      cases hf : (reFindAll2 pat text).find? (qualB name) with
      | some m =>
          rw [hf] at hp
          cases hp
          exact ⟨0, pat, by simp, fun j hj => absurd hj (by omega), m, hf, rfl, rfl, rfl⟩
      | none =>
          rw [hf] at hp
          obtain ⟨i, pat2, hget, hprior, m, hm, hrank, hctx, htot⟩ := ih p hp
          refine ⟨i + 1, pat2, by simpa using hget, ?_, m, hm, hrank, hctx, htot⟩
          intro j hj patj hgetj
          cases j with
          | zero =>
              simp only [List.getElem?_cons_zero] at hgetj
              cases hgetj
              exact hf
          | succ j =>
              simp only [List.getElem?_cons_succ] at hgetj
              exact hprior j (by omega) patj hgetj

/-- C2 (amended): the ranking position is never above 10; it is null
with zero total items exactly when no pattern's match list holds a
qualifying item (rank at most 10, mentions the project, contains a
hyperlink); otherwise the result comes from the first pattern in order
whose match list holds a qualifying item -- a pattern with matches but
no qualifying item falls through to the next pattern rather than
stopping the scan -- and reports that list's first qualifying rank
together with that pattern's full match count. -/
theorem claim_C2_ranking_detection (text : List Char) (project : Project) :
    (∀ p, (analyzeRankings text project).position = some p → p ≤ 10) ∧
    ((analyzeRankings text project).position = none →
      (analyzeRankings text project).totalItems = 0 ∧
      ∀ pat ∈ rankingPatternList, ∀ m ∈ reFindAll2 pat text,
        qualB (lower project.name) m = false) ∧
    (∀ p, (analyzeRankings text project).position = some p →
      ∃ (i : Nat) (pat : RE), rankingPatternList[i]? = some pat ∧
        (∀ j, j < i → ∀ patj, rankingPatternList[j]? = some patj →
          (reFindAll2 patj text).find? (qualB (lower project.name)) = none) ∧
        ∃ m, (reFindAll2 pat text).find? (qualB (lower project.name)) = some m ∧
          p = digitsToNat m.1 ∧
          (analyzeRankings text project).context = pyStrip m.2 ∧
          (analyzeRankings text project).totalItems = (reFindAll2 pat text).length) := by
  have heq : analyzeRankings text project =
      rankingsSpec (lower project.name) text rankingPatternList :=
    rankingsLoop_eq_spec (lower project.name) text rankingPatternList
  rw [heq]
  exact ⟨rankingsSpec_position_le _ text rankingPatternList,
    rankingsSpec_none _ text rankingPatternList,
    rankingsSpec_some _ text rankingPatternList⟩

/-- C2 witness: the theorem's position bound applied where the fall
through answer resolves rank 3 from pattern 2. -/
theorem claim_C2_ranking_detection_witness :
    (analyzeRankings ceFallThroughText projKq).position = some 3 ∧ 3 ≤ 10 :=
  ⟨by decide, (claim_C2_ranking_detection ceFallThroughText projKq).1 3 (by decide)⟩

/-- C2 counterexample: on the fall-through answer the first pattern
with matches is pattern 1, whose single match has rank 99 but does
mention the project and carry a hyperlink, yet the service returns
rank 3 from pattern 2 with pattern 2's match count, contradicting the
claim's first-pattern-with-matches reading. -/
theorem claim_C2_fall_through_counterexample :
    origClaimC2Check ceFallThroughText projKq = false ∧
    (analyzeRankings ceFallThroughText projKq).position = some 3 ∧
    (analyzeRankings ceFallThroughText projKq).totalItems = 1 ∧
    reFindAll2 rankingRe1 ceFallThroughText =
      [("99".data, "#3: kq http://k.co".data)] ∧
    pyIn (lower projKq.name) (lower "#3: kq http://k.co".data) = true ∧
    reSearch analysisUrlRe "#3: kq http://k.co".data = true := by
  refine ⟨by decide, by decide, by decide, by decide, by decide, by decide⟩

/-! ### Helper lemmas: rounding and sum bounds -/

lemma roundHalfEven_nonneg {x : ℚ} (hx : 0 ≤ x) : 0 ≤ roundHalfEven x := by
  simp only [roundHalfEven]
  have hf : (0 : ℤ) ≤ ⌊x⌋ := Int.floor_nonneg.mpr hx
  split_ifs <;> omega

lemma roundHalfEven_le_of_le {x : ℚ} {n : ℤ} (hx : x ≤ (n : ℚ)) :
    roundHalfEven x ≤ n := by
  simp only [roundHalfEven]
  have hf : ⌊x⌋ ≤ n := by
    have := Int.floor_le_floor hx
    simpa using this
  have hfx : (⌊x⌋ : ℚ) ≤ x := Int.floor_le x
  split_ifs with h1 h2 h3
  · exact hf
  · have hlt : (⌊x⌋ : ℚ) < (n : ℚ) := by linarith
    have : ⌊x⌋ < n := by exact_mod_cast hlt
    omega
  · exact hf
  · have heq : x - (⌊x⌋ : ℚ) = 1 / 2 := le_antisymm (not_lt.mp h2) (not_lt.mp h1)
    have hlt : (⌊x⌋ : ℚ) < (n : ℚ) := by linarith
    have : ⌊x⌋ < n := by exact_mod_cast hlt
    omega

lemma roundHalfEven_intCast (n : ℤ) : roundHalfEven (n : ℚ) = n := by
  simp only [roundHalfEven]
  rw [Int.floor_intCast]
  norm_num

lemma pyRound_nonneg (d : Nat) {x : ℚ} (hx : 0 ≤ x) : 0 ≤ pyRound d x := by
  unfold pyRound
  apply div_nonneg
  · exact_mod_cast roundHalfEven_nonneg (mul_nonneg hx (by positivity))
  · positivity

lemma pyRound_le_one (d : Nat) {x : ℚ} (hx : x ≤ 1) : pyRound d x ≤ 1 := by
  unfold pyRound
  rw [div_le_one (by positivity)]
  have h1 : x * 10 ^ d ≤ ((10 ^ d : ℤ) : ℚ) := by
    push_cast
    exact mul_le_of_le_one_left (by positivity) hx
  have h2 : roundHalfEven (x * 10 ^ d) ≤ 10 ^ d := roundHalfEven_le_of_le h1
  exact_mod_cast h2

lemma pyRound_self (d : Nat) (x : ℚ) (n : ℤ) (h : x * 10 ^ d = (n : ℚ)) :
    pyRound d x = x := by
  unfold pyRound
  rw [h, roundHalfEven_intCast, ← h, mul_div_assoc,
    div_self (pow_ne_zero d (by norm_num)), mul_one]

lemma foldl_add_init_le {α : Type} (f : α → ℚ) :
    ∀ (l : List α), (∀ a ∈ l, 0 ≤ f a) → ∀ init : ℚ,
      init ≤ l.foldl (fun a x => a + f x) init
  | [], _, init => by simp
  | x :: xs, hf, init => by
      simp only [List.foldl_cons]
      have hx : 0 ≤ f x := hf x (List.mem_cons_self x xs)
      have h2 := foldl_add_init_le f xs
        (fun a ha => hf a (List.mem_cons_of_mem x ha)) (init + f x)
      linarith

lemma foldl_add_nonneg {α : Type} (f : α → ℚ) (l : List α)
    (hf : ∀ a ∈ l, 0 ≤ f a) : 0 ≤ l.foldl (fun a x => a + f x) 0 :=
  foldl_add_init_le f l hf 0

lemma mem_le_foldl_add {α : Type} (f : α → ℚ) :
    ∀ (l : List α) (x : α), (∀ a ∈ l, 0 ≤ f a) → x ∈ l → ∀ init : ℚ, 0 ≤ init →
      f x ≤ l.foldl (fun a y => a + f y) init
  | [], x, _, hx, _, _ => by cases hx
  | y :: ys, x, hf, hx, init, hinit => by
      simp only [List.foldl_cons]
      have hy : 0 ≤ f y := hf y (List.mem_cons_self y ys)
      have hys : ∀ a ∈ ys, 0 ≤ f a := fun a ha => hf a (List.mem_cons_of_mem y ha)
      rcases List.mem_cons.mp hx with rfl | hx
      · have := foldl_add_init_le f ys hys (init + f x)
        linarith
      · exact mem_le_foldl_add f ys x hys hx (init + f y) (by linarith)

lemma nat_foldl_add_init_le {α : Type} (f : α → Nat) :
    ∀ (l : List α) (init : Nat), init ≤ l.foldl (fun a x => a + f x) init
  | [], _ => le_refl _
  | x :: xs, init => by
      simp only [List.foldl_cons]
      exact le_trans (Nat.le_add_right init (f x))
        (nat_foldl_add_init_le f xs (init + f x))

lemma nat_mem_le_foldl_add {α : Type} (f : α → Nat) :
    ∀ (l : List α) (x : α), x ∈ l → ∀ init : Nat,
      f x ≤ l.foldl (fun a y => a + f y) init
  | [], x, hx, _ => by cases hx
  | y :: ys, x, hx, init => by
      simp only [List.foldl_cons]
      rcases List.mem_cons.mp hx with rfl | hx
      · exact le_trans (Nat.le_add_left (f x) init)
          (nat_foldl_add_init_le f ys (init + f x))
      · exact nat_mem_le_foldl_add f ys x hx (init + f y)

lemma lookup_mem {β : Type} :
    ∀ (l : List (List Char × β)) (k : List Char) (v : β),
      l.lookup k = some v → (k, v) ∈ l
  | [], _, _, h => by cases h
  | (a, b) :: rest, k, v, h => by
      by_cases hk : k = a
      · subst hk
        unfold List.lookup at h
        rw [beq_self_eq_true] at h
        simp only [Option.some.injEq] at h
        subst h
        exact List.mem_cons_self _ _
      · have hbeq : (k == a) = false := beq_false_of_ne hk
        unfold List.lookup at h
        rw [hbeq] at h
        exact List.mem_cons_of_mem _ (lookup_mem rest k v h)

/-! ### Helper lemmas: the business topic characterization -/

lemma topicMatchesAux_sum (text : List Char) :
    ∀ (kws : List (List Char)) (init : Nat),
      ((kws.filterMap (fun kw =>
          let c := countKeyword kw text
          if c > 0 then
            some ({ keyword := kw, count := c,
                    contexts := extractKeywordContexts text kw 1 } : TopicMatch)
          else none)).foldl (fun a m => a + m.count) init)
        = kws.foldl (fun a kw => a + countKeyword kw text) init
  | [], _ => rfl
  | kw :: rest, init => by
      simp only [List.filterMap_cons, List.foldl_cons]
      by_cases h : countKeyword kw text > 0
      · rw [if_pos h]
        dsimp only
        exact topicMatchesAux_sum text rest (init + countKeyword kw text)
      · rw [if_neg h]
        dsimp only
        have h0 : countKeyword kw text = 0 := Nat.eq_zero_of_not_pos h
        rw [h0, Nat.add_zero]
        exact topicMatchesAux_sum text rest init

lemma topicMatches_sum (text : List Char) (cfg : TopicConfig) :
    (topicMatches text cfg).foldl (fun a m => a + m.count) 0
      = topicRawScore cfg text := by
  unfold topicMatches topicRawScore
  exact topicMatchesAux_sum text cfg.keywords 0

lemma topicEntry_some_inv {text : List Char} {cfg : TopicConfig} {e : TopicResult}
    (h : topicEntry text cfg = some e) :
    e.topic = cfg.topic ∧ e.weight = cfg.weight ∧
      e.rawScore = topicRawScore cfg text ∧ 0 < topicRawScore cfg text ∧
      e.score = pyRound 1 ((topicRawScore cfg text : ℚ) * cfg.weight) ∧
      e.relevance = calculateTopicRelevance ((topicRawScore cfg text : ℚ) * cfg.weight) := by
  simp only [topicEntry] at h
  rw [topicMatches_sum text cfg] at h
  split_ifs at h with hpos
  injection h with h
  subst h
  exact ⟨rfl, rfl, rfl, hpos, rfl, rfl⟩

lemma classifyBusinessTopics_mem_inv {topics : List TopicConfig} {text : List Char}
    {e : TopicResult} (h : e ∈ classifyBusinessTopics topics text) :
    ∃ cfg ∈ topics, topicEntry text cfg = some e := by
  unfold classifyBusinessTopics at h
  have h1 := List.take_subset maxTopicsReturned _ h
  have h2 : e ∈ topics.filterMap (topicEntry text) :=
    (pySortDesc_perm _ _).mem_iff.mp h1
  rcases List.mem_filterMap.mp h2 with ⟨cfg, hcfg, heq⟩
  exact ⟨cfg, hcfg, heq⟩

lemma classifyBusinessTopics_sorted (topics : List TopicConfig) (text : List Char) :
    (classifyBusinessTopics topics text).Pairwise (fun a b => b.score ≤ a.score) := by
  unfold classifyBusinessTopics
  exact List.Pairwise.sublist (List.take_sublist _ _) (pySortDesc_sorted _ _)

lemma classifyBusinessTopics_len (topics : List TopicConfig) (text : List Char) :
    (classifyBusinessTopics topics text).length ≤ maxTopicsReturned := by
  unfold classifyBusinessTopics
  exact List.length_take_le _ _

lemma domotique_pricing_weight :
    ∀ cfg ∈ domotiqueTopics, cfg.topic = "pricing".data → cfg.weight = 1 := by
  intro cfg hm ht
  simp only [domotiqueTopics, List.mem_cons, List.not_mem_nil, or_false] at hm
  rcases hm with rfl | rfl | rfl | rfl | rfl | rfl | rfl | rfl
  · rfl
  all_goals exact absurd ht (by decide)

/-- C7: for the domotique topic dictionary, the classifier returns at
most 5 topics ordered by weighted score descending, and every reported
topic comes from some configured topic whose raw score is the plain
total keyword-occurrence count of that configuration on the text, whose
weighted score is round(raw x weight, 1) with no diversity bonus for
distinct matched keywords, and whose relevance tier is high exactly
when the weighted score reaches 5 and medium when it reaches 2 -- not
the claimed defaults 10 and 5. -/
theorem claim_C7_topic_scoring (text : List Char) :
    (classifyBusinessTopics domotiqueTopics text).length ≤ maxTopicsReturned ∧
    (classifyBusinessTopics domotiqueTopics text).Pairwise
      (fun a b => b.score ≤ a.score) ∧
    ∀ e ∈ classifyBusinessTopics domotiqueTopics text,
      ∃ cfg ∈ domotiqueTopics, e.topic = cfg.topic ∧ e.weight = cfg.weight ∧
        e.rawScore = topicRawScore cfg text ∧ 0 < topicRawScore cfg text ∧
        e.score = pyRound 1 ((topicRawScore cfg text : ℚ) * cfg.weight) ∧
        e.relevance =
          (if (topicRawScore cfg text : ℚ) * cfg.weight ≥ 5 then "high".data
           else if (topicRawScore cfg text : ℚ) * cfg.weight ≥ 2 then "medium".data
           else "low".data) := by
  refine ⟨classifyBusinessTopics_len _ _, classifyBusinessTopics_sorted _ _, ?_⟩
  intro e he
  rcases classifyBusinessTopics_mem_inv he with ⟨cfg, hcfg, heq⟩
  rcases topicEntry_some_inv heq with ⟨h1, h2, h3, h4, h5, h6⟩
  simp only [calculateTopicRelevance, topicHighThreshold, topicMediumThreshold] at h6
  exact ⟨cfg, hcfg, h1, h2, h3, h4, h5, h6⟩

/-- C7 counterexample: no diversity-bonus coefficient can reconcile the
claimed score formula and the claimed relevance thresholds 10/5 with
the code: on the text carrying five occurrences of the single pricing
keyword prix (raw score 5, weight 1, one distinct matched keyword) the
code reports score 5, which forces the coefficient to 0, yet reports
relevance high, where the claimed thresholds on 5 + 0 give medium. -/
theorem claim_C7_diversity_counterexample : ¬ OrigClaimC7 := by
  rintro ⟨c, h⟩
  have hmap : (classifyBusinessTopics domotiqueTopics c7Text).map
      (fun e => (e.topic, e.rawScore, e.matchesCount)) =
      [("pricing".data, 5, 1)] := by decide
  obtain ⟨e, hemem, hetop, heraw, hematches⟩ :
      ∃ e ∈ classifyBusinessTopics domotiqueTopics c7Text,
        e.topic = "pricing".data ∧ e.rawScore = 5 ∧ e.matchesCount = 1 := by
    cases hL : classifyBusinessTopics domotiqueTopics c7Text with
    | nil => rw [hL] at hmap; simp at hmap
    | cons e rest =>
        rw [hL] at hmap
        simp only [List.map_cons, List.cons.injEq, Prod.mk.injEq] at hmap
        exact ⟨e, List.mem_cons_self _ _, hmap.1.1, hmap.1.2.1, hmap.1.2.2⟩
  rcases classifyBusinessTopics_mem_inv hemem with ⟨cfg1, hm1, heq1⟩
  rcases topicEntry_some_inv heq1 with ⟨ht1, _, hraw1, _, hsc1, hrel1⟩
  have hp1 : cfg1.topic = "pricing".data := ht1.symm.trans hetop
  have hwt1 : cfg1.weight = 1 := domotique_pricing_weight cfg1 hm1 hp1
  have hraw5 : topicRawScore cfg1 c7Text = 5 := hraw1.symm.trans heraw
  have h5 : ((5 : ℕ) : ℚ) * 1 = (5 : ℚ) := by push_cast; ring
  have hescore : e.score = (5 : ℚ) := by
    rw [hsc1, hraw5, hwt1, h5]
    exact pyRound_self 1 5 50 (by norm_num)
  have heRel : e.relevance = "high".data := by
    rw [hrel1, hraw5, hwt1, h5]
    unfold calculateTopicRelevance topicHighThreshold
    rw [if_pos (by norm_num)]
  obtain ⟨cfg, hm, htop, hscoreEq, hrelEq⟩ := h c7Text e hemem
  have hpt : cfg.topic = "pricing".data := htop.symm.trans hetop
  have hwt : cfg.weight = 1 := domotique_pricing_weight cfg hm hpt
  rw [hescore, heraw, hematches, hwt] at hscoreEq
  push_cast at hscoreEq
  have hc : c = 0 := by linarith
  subst hc
  rw [heRel, heraw, hematches, hwt] at hrelEq
  have harg : ((5 : ℕ) : ℚ) * 1 + 0 * ((1 : ℕ) : ℚ) = 5 := by push_cast; ring
  rw [harg] at hrelEq
  have hmed : claimedRelevanceTier (5 : ℚ) = "medium".data := by
    unfold claimedRelevanceTier
    rw [if_neg (by norm_num), if_pos (by norm_num)]
  rw [hmed] at hrelEq
  exact absurd hrelEq (by decide)

/-! ### Helper lemmas: confidence bounds -/

lemma seo_conf_aux (scores : List (List Char × ℚ)) (key : List Char)
    (hs : ∀ p ∈ scores, 0 ≤ p.2) :
    0 ≤ pyRound 2 (if scores.foldl (fun a p => a + p.2) 0 = 0 then (1 : ℚ) / 10
        else ((scores.lookup key).getD 0) / scores.foldl (fun a p => a + p.2) 0) ∧
      pyRound 2 (if scores.foldl (fun a p => a + p.2) 0 = 0 then (1 : ℚ) / 10
        else ((scores.lookup key).getD 0) / scores.foldl (fun a p => a + p.2) 0) ≤ 1 := by
  have htot0 : 0 ≤ scores.foldl (fun a p => a + p.2) 0 :=
    foldl_add_nonneg (fun p => p.2) scores hs
  have hbase : 0 ≤ (if scores.foldl (fun a p => a + p.2) 0 = 0 then (1 : ℚ) / 10
      else ((scores.lookup key).getD 0) / scores.foldl (fun a p => a + p.2) 0) ∧
      (if scores.foldl (fun a p => a + p.2) 0 = 0 then (1 : ℚ) / 10
      else ((scores.lookup key).getD 0) / scores.foldl (fun a p => a + p.2) 0) ≤ 1 := by
    split_ifs with h0
    · norm_num
    · have htpos : 0 < scores.foldl (fun a p => a + p.2) 0 :=
        lt_of_le_of_ne htot0 (Ne.symm h0)
      have hv0 : 0 ≤ (scores.lookup key).getD 0 := by
        cases hlk : scores.lookup key with
        | none => simp
        | some v => simpa using hs _ (lookup_mem _ _ _ hlk)
      have hvle : (scores.lookup key).getD 0 ≤ scores.foldl (fun a p => a + p.2) 0 := by
        cases hlk : scores.lookup key with
        | none => simpa using htot0
        | some v =>
            simpa using mem_le_foldl_add (fun p => p.2) scores (key, v) hs
              (lookup_mem _ _ _ hlk) 0 le_rfl
      exact ⟨div_nonneg hv0 htot0, (div_le_one htpos).mpr hvle⟩
  exact ⟨pyRound_nonneg 2 hbase.1, pyRound_le_one 2 hbase.2⟩

lemma seoConfidence_bounds (configs : List IntentConfig) (text : List Char)
    (hw : ∀ c ∈ configs, 0 ≤ c.weight) :
    0 ≤ (classifySeoIntent configs text).confidence ∧
      (classifySeoIntent configs text).confidence ≤ 1 := by
  simp only [classifySeoIntent]
  refine seo_conf_aux _ _ ?_
  intro p hp
  rcases List.mem_map.mp hp with ⟨t, ht, rfl⟩
  rcases List.mem_map.mp ht with ⟨cfg, hcfg, rfl⟩
  rcases hi : intentScan text cfg with ⟨tot, cats⟩
  simp only [hi]
  exact mul_nonneg (Nat.cast_nonneg _) (hw cfg hcfg)

lemma content_conf_aux (scores : List (List Char × Nat)) (key : List Char)
    (h0 : ¬ scores.foldl (fun a p => a + p.2) 0 = 0) :
    0 ≤ (((scores.lookup key).getD 0 : ℕ) : ℚ)
        / (((scores.foldl (fun a p => a + p.2) 0 : ℕ)) : ℚ) ∧
      (((scores.lookup key).getD 0 : ℕ) : ℚ)
        / (((scores.foldl (fun a p => a + p.2) 0 : ℕ)) : ℚ) ≤ 1 := by
  have htpos : 0 < scores.foldl (fun a p => a + p.2) 0 := Nat.pos_of_ne_zero h0
  have hvle : (scores.lookup key).getD 0 ≤ scores.foldl (fun a p => a + p.2) 0 := by
    cases hlk : scores.lookup key with
    | none => simp
    | some v =>
        simpa using nat_mem_le_foldl_add (fun p => p.2) scores (key, v)
          (lookup_mem _ _ _ hlk) 0
  constructor
  · exact div_nonneg (Nat.cast_nonneg _) (Nat.cast_nonneg _)
  · rw [div_le_one (by exact_mod_cast htpos)]
    exact_mod_cast hvle

lemma contentConfidence_bounds (patterns : List ContentPatternCfg) (text : List Char) :
    0 ≤ (detectContentType patterns text).confidence ∧
      (detectContentType patterns text).confidence ≤ 1 := by
  simp only [detectContentType]
  split_ifs with h0
  · exact ⟨pyRound_nonneg 2 (by norm_num), pyRound_le_one 2 (by norm_num)⟩
  · refine ⟨pyRound_nonneg 2 (content_conf_aux _ _ h0).1,
      pyRound_le_one 2 (content_conf_aux _ _ h0).2⟩

lemma global_conf_aux (a b c d : ℚ) (ha : 0 ≤ a) (hb : 0 ≤ b) (hc : 0 ≤ c)
    (hd : 0 ≤ d) : 0 ≤ a * (4 / 10) + b * (3 / 10) + c + d := by
  have h1 := mul_nonneg ha (by norm_num : (0 : ℚ) ≤ 4 / 10)
  have h2 := mul_nonneg hb (by norm_num : (0 : ℚ) ≤ 3 / 10)
  linarith

lemma globalConfidence_bounds (seo : SeoIntentResult) (topics : List TopicResult)
    (content : ContentTypeResult) (entities : List (List Char × List EntityHit))
    (hseo : 0 ≤ seo.confidence) (hcontent : 0 ≤ content.confidence) :
    0 ≤ calculateGlobalConfidence seo topics content entities ∧
      calculateGlobalConfidence seo topics content entities ≤ 1 := by
  simp only [calculateGlobalConfidence]
  constructor
  · apply pyMin_nonneg (by norm_num)
    apply pyRound_nonneg
    refine global_conf_aux _ _ _ _ hseo hcontent
      (pyMin_nonneg (by norm_num) ?_) (pyMin_nonneg (by norm_num) ?_)
    · exact mul_nonneg (Nat.cast_nonneg _) (by norm_num)
    · exact mul_nonneg (Nat.cast_nonneg _) (by norm_num)
  · exact pyMin_le_left 1 _

/-- C8: every confidence that classify_full produces under the default
domotique configuration -- the SEO-intent confidence, the content-type
confidence and the global confidence -- lies in [0,1], and the returned
business topic list is sorted by weighted score descending with at
most 5 entries. -/
theorem claim_C8_confidence_invariants (prompt aiResponse : List Char) :
    (0 ≤ (classifyFull domotiqueConfig prompt aiResponse).seoIntent.confidence ∧
      (classifyFull domotiqueConfig prompt aiResponse).seoIntent.confidence ≤ 1) ∧
    (0 ≤ (classifyFull domotiqueConfig prompt aiResponse).contentType.confidence ∧
      (classifyFull domotiqueConfig prompt aiResponse).contentType.confidence ≤ 1) ∧
    (0 ≤ (classifyFull domotiqueConfig prompt aiResponse).confidence ∧
      (classifyFull domotiqueConfig prompt aiResponse).confidence ≤ 1) ∧
    (classifyFull domotiqueConfig prompt aiResponse).businessTopics.Pairwise
      (fun a b => b.score ≤ a.score) ∧
    (classifyFull domotiqueConfig prompt aiResponse).businessTopics.length
      ≤ maxTopicsReturned := by
  have hw : ∀ c ∈ domotiqueConfig.seo, 0 ≤ c.weight := by
    intro c hc
    simp only [domotiqueConfig, seoIntentConfigs, List.mem_cons,
      List.not_mem_nil, or_false] at hc
    rcases hc with rfl | rfl | rfl | rfl <;> norm_num
  simp only [classifyFull]
  exact ⟨seoConfidence_bounds _ _ hw, contentConfidence_bounds _ _,
    globalConfidence_bounds _ _ _ _ (seoConfidence_bounds _ _ hw).1
      (contentConfidence_bounds _ _).1,
    classifyBusinessTopics_sorted _ _, classifyBusinessTopics_len _ _⟩

end Visi
